import Mathlib

/-!
Verification development for the network-vis discovery engine.

The definitions below are a shallow embedding of the TypeScript sources:
JavaScript numbers carrying timestamps, byte counts and packet counts become
`Nat`/`Int`; fractional confidence weights and byte rates become `Rat`;
`Map` objects (insertion-ordered, keyed) become association lists updated
in place; `undefined`-able fields become `Option`; subprocess results and
the ambient clock (`Date.now()`) become explicit parameters.  Regular
expression pattern data loaded from JSON profile databases is represented
as `String → Bool` matcher functions, since the patterns are data, not code.
-/

set_option maxRecDepth 10000

/-! ## JavaScript string and number helpers

All string work is done on character lists by structural recursion, so that
every definition evaluates inside the kernel. -/

/-- Substring scan over character lists. -/
def includesL (hay needle : List Char) : Bool :=
  match hay with
  | [] => needle.isEmpty
  | _ :: rest => needle.isPrefixOf hay ∨ includesL rest needle

/-- JS `String.prototype.includes`. -/
def jsIncludes (s needle : String) : Bool :=
  includesL s.toList needle.toList

/-- JS empty-string test. -/
def jsIsEmpty (s : String) : Bool := s.toList.isEmpty

/-- Split a character list at every occurrence of one character. -/
def splitCharL (sep : Char) : List Char → List (List Char)
  | [] => [[]]
  | c :: rest =>
    if c = sep then [] :: splitCharL sep rest
    else
      match splitCharL sep rest with
      | [] => [[c]]
      | g :: gs => (c :: g) :: gs

/-- JS `String.prototype.split` with a one-character separator. -/
def splitChar (sep : Char) (s : String) : List String :=
  (splitCharL sep s.toList).map String.mk

/-- Fuelled splitter for a multi-character separator (fuel bounds the scan;
`splitStr` supplies enough for the whole string). -/
def splitStrAux (sep : List Char) : Nat → List Char → List (List Char)
  | 0, hay => [hay]
  | fuel + 1, hay =>
    match hay with
    | [] => [[]]
    | c :: rest =>
      if sep.isPrefixOf hay then
        [] :: splitStrAux sep fuel (hay.drop sep.length)
      else
        match splitStrAux sep fuel rest with
        | [] => [[c]]
        | g :: gs => (c :: g) :: gs

/-- JS `String.prototype.split` with a non-empty separator string. -/
def splitStr (sep s : String) : List String :=
  (splitStrAux sep.toList s.toList.length s.toList).map String.mk

/-- JS `String.prototype.trim`. -/
def jsTrim (s : String) : String :=
  String.mk (((s.toList.dropWhile Char.isWhitespace).reverse.dropWhile
    Char.isWhitespace).reverse)

/-- JS `String.prototype.toLowerCase` (ASCII). -/
def jsToLower (s : String) : String := String.mk (s.toList.map Char.toLower)

/-- JS `String.prototype.toUpperCase` (ASCII). -/
def jsToUpper (s : String) : String := String.mk (s.toList.map Char.toUpper)

/-- JS `String.prototype.startsWith`. -/
def jsStartsWith (s t : String) : Bool := t.toList.isPrefixOf s.toList

/-- JS `String.prototype.endsWith`. -/
def jsEndsWith (s t : String) : Bool := t.toList.reverse.isPrefixOf s.toList.reverse

/-- JS `Array.prototype.join`. -/
def jsJoin (sep : String) : List String → String
  | [] => ""
  | [x] => x
  | x :: xs => x ++ sep ++ jsJoin sep xs

/-- JS `String.prototype.padStart(n, c)`. -/
def jsPadStart (s : String) (n : Nat) (c : Char) : String :=
  if s.length ≥ n then s else String.mk (List.replicate (n - s.length) c) ++ s

/-- Take the maximal leading run of decimal digits. -/
def takeDigits : List Char → List Char × List Char
  | [] => ([], [])
  | c :: rest =>
    if c.isDigit then
      let (ds, r) := takeDigits rest
      (c :: ds, r)
    else ([], c :: rest)

/-- Decimal digit list to natural number. -/
def digitsToNat (ds : List Char) : Nat :=
  ds.foldl (fun acc c => acc * 10 + (c.toNat - 48)) 0

/-- JS `parseInt(s, 10)`: skip leading whitespace, optional sign, maximal
digit run; `none` models `NaN`. -/
def jsParseInt (s : String) : Option Int :=
  let cs := s.toList.dropWhile Char.isWhitespace
  let (sign, cs) : Int × List Char :=
    match cs with
    | '-' :: r => (-1, r)
    | '+' :: r => (1, r)
    | r => (1, r)
  let (ds, _) := takeDigits cs
  if ds.isEmpty then none else some (sign * digitsToNat ds)

/-- JS `parseFloat` restricted to the plain decimal forms that occur in the
embedded parsers (optional sign, digits, optional fractional part), returned
as an exact rational; `none` models `NaN`. -/
def jsParseFloat (s : String) : Option Rat :=
  let cs := s.toList.dropWhile Char.isWhitespace
  let (sign, cs) : Rat × List Char :=
    match cs with
    | '-' :: r => (-1, r)
    | '+' :: r => (1, r)
    | r => (1, r)
  let (intDs, rest) := takeDigits cs
  match rest with
  | '.' :: r =>
    let (fracDs, _) := takeDigits r
    if intDs.isEmpty ∧ fracDs.isEmpty then none
    else some (sign * ((digitsToNat intDs : Rat) +
      (digitsToNat fracDs : Rat) / ((10 : Rat) ^ fracDs.length)))
  | _ =>
    if intDs.isEmpty then none else some (sign * (digitsToNat intDs : Rat))

/-- JS `Math.round`: round half toward positive infinity. -/
def jsRound (x : Rat) : Int := (x + 1/2).floor

/-- Index of the last occurrence of a character, JS `lastIndexOf` (−1 if absent). -/
def jsLastIndexOf (s : String) (c : Char) : Int :=
  let idx := (s.toList.reverse.findIdx? (· = c))
  match idx with
  | none => -1
  | some i => (s.length : Int) - 1 - i

/-- JS `String.prototype.slice(0, n)` on ASCII strings. -/
def jsSliceTo (s : String) (n : Nat) : String := String.mk (s.toList.take n)

/-- JS `String.prototype.slice(n)` on ASCII strings. -/
def jsSliceFrom (s : String) (n : Nat) : String := String.mk (s.toList.drop n)

/-! ## Association lists standing in for insertion-ordered JS `Map`s -/

/-- Lookup in an insertion-ordered map (first matching key). -/
def alGet {α : Type} (m : List (String × α)) (k : String) : Option α :=
  (m.find? (fun p => p.1 = k)).map (·.2)

/-- JS `Map.prototype.set`: replace the value at an existing key in place,
otherwise append the binding. -/
def alSet {α : Type} (m : List (String × α)) (k : String) (v : α) : List (String × α) :=
  if (m.find? (fun p => p.1 = k)).isSome then
    m.map (fun p => if p.1 = k then (k, v) else p)
  else m ++ [(k, v)]

/-- JS `Map.prototype.has`. -/
def alHas {α : Type} (m : List (String × α)) (k : String) : Bool :=
  (m.find? (fun p => p.1 = k)).isSome

/-! ## Data model (src/main/types.ts) -/

inductive SignalType
  | thisDevice | wifi | lan | bluetooth | bonjour | connection
  deriving DecidableEq

inductive NodeStatus
  | active | stale | expired
  deriving DecidableEq

inductive OsFamily
  | windows | macos | ios | linux | android | freebsd | unknown
  deriving DecidableEq

inductive DeviceCategory
  | desktop | laptop | mobile | server | iot | embedded | unknown
  deriving DecidableEq

inductive EdgeType
  | connectedTo | hostsService | gateway | sameDevice
  deriving DecidableEq

/-- The `NetworkNode` union flattened into one record: the common envelope
(`NetworkNodeBase`) plus the variant-specific attributes the embedded code
reads or writes.  A JS property that may be absent is an `Option`. -/
structure NetworkNode where
  id : String
  signalType : SignalType
  name : String
  status : NodeStatus
  firstSeen : Nat
  lastSeen : Nat
  mac : Option String := none
  ip : Option String := none
  signalStrength : Option Rat := none
  protocols : Option (List (String × Nat)) := none
  totalBytes : Option Int := none
  totalPackets : Option Nat := none
  osFamily : Option OsFamily := none
  osVersion : Option String := none
  deviceCategory : Option DeviceCategory := none
  osFingerprintConfidence : Option Rat := none
  vendor : Option String := none
  deviceType : Option String := none
  productName : Option String := none
  iconKey : Option String := none
  iface : Option String := none
  isGateway : Option Bool := none
  minorType : Option String := none
  isConnected : Option Bool := none
  serviceType : Option String := none
  bytesPerSec : Option Rat := none
  bytesInPerSec : Option Rat := none
  bytesOutPerSec : Option Rat := none
  deriving DecidableEq

structure NetworkEdge where
  id : String
  source : String
  target : String
  type : EdgeType
  bytesPerSec : Option Rat := none
  bytesInPerSec : Option Rat := none
  bytesOutPerSec : Option Rat := none
  deriving DecidableEq

/-- JS object spread `{...old, ...new}` for two nodes: mandatory envelope
fields always come from the newer object; optional fields come from the
newer object when present there, else from the older one. -/
def mergeNode (old n : NetworkNode) : NetworkNode where
  id := n.id
  signalType := n.signalType
  name := n.name
  status := n.status
  firstSeen := n.firstSeen
  lastSeen := n.lastSeen
  mac := n.mac <|> old.mac
  ip := n.ip <|> old.ip
  signalStrength := n.signalStrength <|> old.signalStrength
  protocols := n.protocols <|> old.protocols
  totalBytes := n.totalBytes <|> old.totalBytes
  totalPackets := n.totalPackets <|> old.totalPackets
  osFamily := n.osFamily <|> old.osFamily
  osVersion := n.osVersion <|> old.osVersion
  deviceCategory := n.deviceCategory <|> old.deviceCategory
  osFingerprintConfidence := n.osFingerprintConfidence <|> old.osFingerprintConfidence
  vendor := n.vendor <|> old.vendor
  deviceType := n.deviceType <|> old.deviceType
  productName := n.productName <|> old.productName
  iconKey := n.iconKey <|> old.iconKey
  iface := n.iface <|> old.iface
  isGateway := n.isGateway <|> old.isGateway
  minorType := n.minorType <|> old.minorType
  isConnected := n.isConnected <|> old.isConnected
  serviceType := n.serviceType <|> old.serviceType
  bytesPerSec := n.bytesPerSec <|> old.bytesPerSec
  bytesInPerSec := n.bytesInPerSec <|> old.bytesInPerSec
  bytesOutPerSec := n.bytesOutPerSec <|> old.bytesOutPerSec

/-! ## Entity store (src/main/services/state.ts, `NetworkState`) -/

def staleAfterMs : Nat := 30000
def expiredAfterMs : Nat := 60000
def removeAfterMs : Nat := 90000

/-- The `NetworkState` store: the two keyed `Map`s become insertion-ordered
lists with ids as keys. -/
structure NetworkState where
  nodes : List NetworkNode
  edges : List NetworkEdge
  deriving DecidableEq

/-- Lookup of `this.nodes.get(id)` (first node with the id). -/
def NetworkState.findNode (s : NetworkState) (id : String) : Option NetworkNode :=
  s.nodes.find? (fun n => n.id = id)

/-- Replace the first node carrying the id (JS `Map.set` on an existing key). -/
def nodesSet (l : List NetworkNode) (id : String) (n : NetworkNode) : List NetworkNode :=
  match l with
  | [] => []
  | m :: rest => if m.id = id then n :: rest else m :: nodesSet rest id n

/-- The record stored by `upsertNode` over an existing node: the merge with
the original `firstSeen` kept, `lastSeen` bumped to now, status forced
`active`. -/
def upsertMerge (existing node : NetworkNode) (now : Nat) : NetworkNode :=
  { mergeNode existing node with
    firstSeen := existing.firstSeen, lastSeen := now, status := NodeStatus.active }

/-- The record stored by `upsertNode` for a new id: both timestamps set to
now, status `active`. -/
def upsertFresh (node : NetworkNode) (now : Nat) : NetworkNode :=
  { node with firstSeen := now, lastSeen := now, status := NodeStatus.active }

/-- `NetworkState.upsertNode`: merge over an existing node (preserving its
`firstSeen`, bumping `lastSeen` to the current time and forcing `active`),
or insert fresh with both timestamps set to the current time. -/
def NetworkState.upsertNode (s : NetworkState) (node : NetworkNode) (now : Nat) : NetworkState :=
  match s.findNode node.id with
  | some existing =>
    { s with nodes := nodesSet s.nodes node.id (upsertMerge existing node now) }
  | none =>
    { s with nodes := s.nodes ++ [upsertFresh node now] }

/-- `NetworkState.patchNode`: merge fields into an existing node without
touching lifecycle; no-op when the id is absent.  The `Partial<NetworkNode>`
argument is modelled as a node whose present optional fields are the patch
and whose envelope fields other than the merged ones are ignored via the
explicit field list. -/
def NetworkState.patchNode (s : NetworkState) (id : String) (fields : NetworkNode) : NetworkState :=
  match s.findNode id with
  | some existing =>
    { s with nodes := nodesSet s.nodes id (mergeNode existing fields) }
  | none => s

/-- `NetworkState.upsertEdge`: replace any relation with the same id. -/
def NetworkState.upsertEdge (s : NetworkState) (edge : NetworkEdge) : NetworkState :=
  if (s.edges.find? (fun e => e.id = edge.id)).isSome then
    { s with edges := s.edges.map (fun e => if e.id = edge.id then edge else e) }
  else { s with edges := s.edges ++ [edge] }

/-- `NetworkState.removeEdgesForNode`: drop every relation whose source or
target is the given id. -/
def removeEdgesForNode (edges : List NetworkEdge) (nodeId : String) : List NetworkEdge :=
  edges.filter (fun e => ¬(e.source = nodeId ∨ e.target = nodeId))

/-- One entry of the `tick` loop body, threading the evolving edge map,
removed-id accumulator and status-change flag through the node iteration. -/
def tickVisit (now : Nat) :
    List NetworkNode → List NetworkEdge →
    List NetworkNode × List NetworkEdge × List String × Bool
  | [], edges => ([], edges, [], false)
  | n :: rest, edges =>
    if n.signalType = SignalType.thisDevice then
      let (ns, es, rem, ch) := tickVisit now rest edges
      (n :: ns, es, rem, ch)
    else
      let age : Int := (now : Int) - (n.lastSeen : Int)
      if age > (removeAfterMs : Int) then
        let (ns, es, rem, ch) := tickVisit now rest (removeEdgesForNode edges n.id)
        (ns, es, n.id :: rem, ch)
      else if age > (expiredAfterMs : Int) ∧ n.status ≠ NodeStatus.expired then
        let (ns, es, rem, _) := tickVisit now rest edges
        ({ n with status := NodeStatus.expired } :: ns, es, rem, true)
      else if age > (staleAfterMs : Int) ∧ n.status ≠ NodeStatus.stale ∧
          n.status ≠ NodeStatus.expired then
        let (ns, es, rem, _) := tickVisit now rest edges
        ({ n with status := NodeStatus.stale } :: ns, es, rem, true)
      else
        let (ns, es, rem, ch) := tickVisit now rest edges
        (n :: ns, es, rem, ch)

/-- `NetworkState.tick`: lifecycle pass over every node, returning the new
store, the removed ids and whether any status changed. -/
def NetworkState.tick (s : NetworkState) (now : Nat) :
    NetworkState × List String × Bool :=
  let (ns, es, rem, ch) := tickVisit now s.nodes s.edges
  ({ nodes := ns, edges := es }, rem, ch)

/-- Store well-formedness: node ids are pairwise distinct (guaranteed in the
source by the id-keyed `Map`). -/
def NetworkState.WF (s : NetworkState) : Prop :=
  s.nodes.Pairwise (fun a b => a.id ≠ b.id)

instance (s : NetworkState) : Decidable s.WF := by
  unfold NetworkState.WF
  exact List.instDecidablePairwise s.nodes

/-! ## Throughput rates and boundary enrichment (TrafficScanner / Orchestrator) -/

/-- Per-connection bandwidth rates published by the Throughput collector. -/
structure TrafficRate where
  bytesPerSec : Rat
  bytesInPerSec : Rat
  bytesOutPerSec : Rat
  deriving DecidableEq

/-- Spread a rate record onto a node copy (`{...node, ...rate}`). -/
def nodeWithRate (n : NetworkNode) (r : TrafficRate) : NetworkNode :=
  { n with bytesPerSec := some r.bytesPerSec, bytesInPerSec := some r.bytesInPerSec,
           bytesOutPerSec := some r.bytesOutPerSec }

/-- Spread a rate record onto an edge copy (`{...edge, ...rate}`). -/
def edgeWithRate (e : NetworkEdge) (r : TrafficRate) : NetworkEdge :=
  { e with bytesPerSec := some r.bytesPerSec, bytesInPerSec := some r.bytesInPerSec,
           bytesOutPerSec := some r.bytesOutPerSec }

/-- `Orchestrator.enrichNodes`: attach traffic rates to outbound node copies
whose id is a key of the rate map. -/
def Orchestrator.enrichNodes (rates : List (String × TrafficRate))
    (nodes : List NetworkNode) : List NetworkNode :=
  if rates.isEmpty then nodes
  else nodes.map (fun node =>
    match alGet rates node.id with
    | some r => nodeWithRate node r
    | none => node)

/-- `Orchestrator.enrichEdges`: attach traffic rates to outbound edge copies,
preferring the target id's rate, else the source id's. -/
def Orchestrator.enrichEdges (rates : List (String × TrafficRate))
    (edges : List NetworkEdge) : List NetworkEdge :=
  if rates.isEmpty then edges
  else edges.map (fun edge =>
    match alGet rates edge.target <|> alGet rates edge.source with
    | some r => edgeWithRate edge r
    | none => edge)

/-- The `node_update` payload (`ScannerUpdate`). -/
structure ScannerUpdate where
  nodes : List NetworkNode
  edges : List NetworkEdge
  removed : List String
  timestamp : Nat
  deriving DecidableEq

/-- `Orchestrator.pushUpdate`: compose the outbound update from the current
store, enriching the copies at the boundary; reads the store, never writes it. -/
def Orchestrator.pushUpdate (s : NetworkState) (rates : List (String × TrafficRate))
    (removed : List String) (now : Nat) : ScannerUpdate :=
  { nodes := Orchestrator.enrichNodes rates s.nodes
    edges := Orchestrator.enrichEdges rates s.edges
    removed := removed
    timestamp := now }

/-! ## OS fingerprinting (fingerprinting/os-engine.ts, os-enricher.ts) -/

inductive OsSignalSource
  | ttl | oui | hostname | bonjour | bluetoothName | nmap
  deriving DecidableEq

structure OsSignal where
  source : OsSignalSource
  osFamily : OsFamily
  confidence : Rat
  raw : Option String := none
  deriving DecidableEq

structure OsFingerprintResult where
  osFamily : OsFamily
  deviceCategory : DeviceCategory
  confidence : Rat
  deriving DecidableEq

def CONFIDENCE_THRESHOLD : Rat := 45/100

/-- Sum confidences per OS family in first-seen family order (insertion order
of the JS `Map`). -/
def sumScores (signals : List OsSignal) : List (OsFamily × Rat) :=
  signals.foldl (fun acc sig =>
    match acc.find? (fun p => p.1 = sig.osFamily) with
    | some p =>
      acc.map (fun q => if q.1 = sig.osFamily then (q.1, p.2 + sig.confidence) else q)
    | none => acc ++ [(sig.osFamily, sig.confidence)]) []

/-- Pick the family with the strictly greatest score (first wins ties),
starting from `unknown` at score 0. -/
def bestFamily (scores : List (OsFamily × Rat)) : OsFamily × Rat :=
  scores.foldl (fun best p => if p.2 > best.2 then p else best) (OsFamily.unknown, 0)

/-- `OsFingerprintEngine.infer`. -/
def OsFingerprintEngine.infer (signals : List OsSignal) : Option OsFingerprintResult :=
  if signals.isEmpty then none
  else
    let (fam, score) := bestFamily (sumScores signals)
    let normalizedConfidence := min 1 score
    if normalizedConfidence < CONFIDENCE_THRESHOLD then none
    else some { osFamily := fam, deviceCategory := DeviceCategory.unknown,
                confidence := normalizedConfidence }

/-- OS-level default branch of `deriveCategory`. -/
def OsFingerprintEngine.deriveCategoryFromOs (osFamily : OsFamily) : DeviceCategory :=
  match osFamily with
  | OsFamily.ios => DeviceCategory.mobile
  | OsFamily.android => DeviceCategory.mobile
  | OsFamily.macos => DeviceCategory.desktop
  | OsFamily.windows => DeviceCategory.desktop
  | OsFamily.linux => DeviceCategory.server
  | OsFamily.freebsd => DeviceCategory.server
  | OsFamily.unknown => DeviceCategory.unknown

/-- Device-type branch of `deriveCategory` (classifier-provided `deviceType`). -/
def OsFingerprintEngine.deriveCategoryFromType (osFamily : OsFamily)
    (deviceType : Option String) : DeviceCategory :=
  match deviceType with
  | some dt =>
    if dt = "computer" then
      if osFamily = OsFamily.ios ∨ osFamily = OsFamily.android then DeviceCategory.mobile
      else DeviceCategory.desktop
    else if dt = "server" then DeviceCategory.server
    else if dt = "smart-home" ∨ dt = "speaker" ∨ dt = "media-player" ∨ dt = "camera" then
      DeviceCategory.iot
    else if dt = "storage" then DeviceCategory.server
    else if dt = "router" then DeviceCategory.embedded
    else OsFingerprintEngine.deriveCategoryFromOs osFamily
  | none => OsFingerprintEngine.deriveCategoryFromOs osFamily

/-- `OsFingerprintEngine.deriveCategory`: Bluetooth minor type takes
precedence, then the classifier device type, then OS-level defaults. -/
def OsFingerprintEngine.deriveCategory (osFamily : OsFamily)
    (deviceType : Option String) (minorType : Option String) : DeviceCategory :=
  match minorType with
  | some mtRaw =>
    let mt := jsToLower mtRaw
    if jsIncludes mt "phone" ∨ jsIncludes mt "smartphone" then DeviceCategory.mobile
    else if jsIncludes mt "laptop" ∨ jsIncludes mt "notebook" then DeviceCategory.laptop
    else if jsIncludes mt "desktop" ∨ jsIncludes mt "computer" then DeviceCategory.desktop
    else if jsIncludes mt "headphone" ∨ jsIncludes mt "audio" ∨ jsIncludes mt "speaker" then
      DeviceCategory.iot
    else OsFingerprintEngine.deriveCategoryFromType osFamily deviceType
  | none => OsFingerprintEngine.deriveCategoryFromType osFamily deviceType

/-- One OS-family profile from the static database `os-profiles.json`.  The
JSON file travels with the build, not the sources, so profile contents are
parameters; regex pattern entries are matcher functions. -/
structure OsProfile where
  id : String
  osFamily : OsFamily
  ttlRange : Option (Int × Int) := none
  ouiPatterns : Option (List String) := none
  hostnamePatterns : Option (List (String → Bool)) := none
  bonjourServiceTypes : Option (List String) := none
  bluetoothNamePatterns : Option (List (String → Bool)) := none

/-- Ascending numeric sort, the JS `[...ttls].sort((a, b) => a - b)`. -/
def jsSortNums (l : List Int) : List Int :=
  l.foldr (fun x sorted => sorted.orderedInsert (· ≤ ·) x) []

/-- `OsEnricher.gatherTtlSignals`: the median of the node IP's TTL window,
checked against each profile's TTL range at weight 0.3. -/
def OsEnricher.gatherTtlSignals (profiles : List OsProfile) (node : NetworkNode)
    (ttlsByIp : List (String × List Int)) : List OsSignal :=
  match node.ip with
  | none => []
  | some ip =>
    match alGet ttlsByIp ip with
    | none => []
    | some ttls =>
      if ttls.isEmpty then []
      else
        let sorted := jsSortNums ttls
        let medianTtl := sorted.getD (sorted.length / 2) 0
        profiles.filterMap (fun profile =>
          match profile.ttlRange with
          | none => none
          | some (lo, hi) =>
            if lo ≤ medianTtl ∧ medianTtl ≤ hi then
              some { source := OsSignalSource.ttl, osFamily := profile.osFamily,
                     confidence := 3/10, raw := some (toString medianTtl) }
            else none)

/-- `OsEnricher.gatherOuiSignals`: case-insensitive vendor substring match at
weight 0.4 (first matching pattern per profile fires once). -/
def OsEnricher.gatherOuiSignals (profiles : List OsProfile)
    (vendor : Option String) : List OsSignal :=
  match vendor with
  | none => []
  | some vendor =>
    let v := jsToLower vendor
    profiles.filterMap (fun profile =>
      match profile.ouiPatterns with
      | none => none
      | some pats =>
        if pats.any (fun pattern => jsIncludes v (jsToLower pattern)) then
          some { source := OsSignalSource.oui, osFamily := profile.osFamily,
                 confidence := 4/10, raw := some vendor }
        else none)

/-- `OsEnricher.gatherHostnameSignals`: hostname regex match at weight 0.5. -/
def OsEnricher.gatherHostnameSignals (profiles : List OsProfile)
    (hostname : String) : List OsSignal :=
  if jsIsEmpty hostname then []
  else profiles.filterMap (fun profile =>
    match profile.hostnamePatterns with
    | none => none
    | some pats =>
      if pats.any (fun pattern => pattern hostname) then
        some { source := OsSignalSource.hostname, osFamily := profile.osFamily,
               confidence := 5/10, raw := some hostname }
      else none)

/-- Strip a leading underscore and a trailing `._tcp` from a profile service
type, the core label the source compares with `includes`. -/
def svcCore (svcType : String) : String :=
  let s := if jsStartsWith svcType "_" then jsSliceFrom svcType 1 else svcType
  if jsEndsWith s "._tcp" then jsSliceTo s (s.length - 5) else s

/-- `OsEnricher.gatherBonjourSignals`: a service type observed at the node's
IP containing a profile service type's core label fires at weight 0.5. -/
def OsEnricher.gatherBonjourSignals (profiles : List OsProfile)
    (ip : Option String) (bonjourByIp : List (String × List String)) : List OsSignal :=
  match ip with
  | none => []
  | some ip =>
    match alGet bonjourByIp ip with
    | none => []
    | some serviceTypes =>
      if serviceTypes.isEmpty then []
      else profiles.filterMap (fun profile =>
        match profile.bonjourServiceTypes with
        | none => none
        | some svcTypes =>
          match svcTypes.find? (fun svcType =>
              serviceTypes.any (fun s => jsIncludes s (svcCore svcType))) with
          | some svcType =>
            some { source := OsSignalSource.bonjour, osFamily := profile.osFamily,
                   confidence := 5/10, raw := some svcType }
          | none => none)

/-- `OsEnricher.gatherBluetoothSignals`: Bluetooth device-name regex match at
weight 0.5 for Bluetooth nodes. -/
def OsEnricher.gatherBluetoothSignals (profiles : List OsProfile)
    (node : NetworkNode) : List OsSignal :=
  if node.signalType ≠ SignalType.bluetooth then []
  else if jsIsEmpty node.name then []
  else profiles.filterMap (fun profile =>
    match profile.bluetoothNamePatterns with
    | none => none
    | some pats =>
      if pats.any (fun pattern => pattern node.name) then
        some { source := OsSignalSource.bluetoothName, osFamily := profile.osFamily,
               confidence := 5/10, raw := some node.name }
      else none)

/-- Build the IP → bonjour service-type index from the bonjour nodes. -/
def bonjourIpIndex (bonjourNodes : List NetworkNode) : List (String × List String) :=
  bonjourNodes.foldl (fun acc b =>
    match b.ip, b.serviceType with
    | some ip, some svc => alSet acc ip ((alGet acc ip).getD [] ++ [svc])
    | _, _ => acc) []

/-- `OsEnricher.enrich`: fingerprint LAN and Bluetooth nodes below the 0.85
confidence cutoff, attaching `osFamily`, `deviceCategory` and
`osFingerprintConfidence` when the inferred confidence clears 0.45. -/
def OsEnricher.enrich (profiles : List OsProfile) (nodes : List NetworkNode)
    (ttlsByIp : List (String × List Int)) (bonjourNodes : List NetworkNode) :
    List NetworkNode :=
  let bonjourByIp := bonjourIpIndex bonjourNodes
  nodes.map (fun node =>
    let highConfidence : Bool :=
      match node.osFingerprintConfidence with
      | some c => c ≥ 85/100
      | none => false
    if node.signalType ≠ SignalType.lan ∧ node.signalType ≠ SignalType.bluetooth then node
    else if highConfidence then node
    else
      let signals :=
        OsEnricher.gatherTtlSignals profiles node ttlsByIp ++
        OsEnricher.gatherOuiSignals profiles node.vendor ++
        OsEnricher.gatherHostnameSignals profiles node.name ++
        OsEnricher.gatherBonjourSignals profiles node.ip bonjourByIp ++
        OsEnricher.gatherBluetoothSignals profiles node
      match OsFingerprintEngine.infer signals with
      | none => node
      | some result =>
        let deviceCategory :=
          OsFingerprintEngine.deriveCategory result.osFamily node.deviceType node.minorType
        { node with osFamily := some result.osFamily,
                    deviceCategory := some deviceCategory,
                    osFingerprintConfidence := some result.confidence })

/-! ## Device classifier (fingerprinting/fingerprinter.ts, bundled as the
second document of fingerprinting/nmap-scanner.ts)

`DeviceFingerprinter` cross-references LAN entities with mDNS services and
OUI vendor data against the static `device-profiles.json` database.  The
profile database travels with the build as data, so profile contents are
parameters; hostname regex entries are matcher functions, as in
`OsProfile`. -/

/-- One profile of the static device database (data, not code). -/
structure DeviceProfile where
  id : String := ""
  deviceType : String
  productName : String
  iconKey : String
  vendorPatterns : Option (List String) := none
  serviceTypes : Option (List String) := none
  hostnamePatterns : Option (List (String → Bool)) := none

/-- JS truthiness of an optional string: present and non-empty. -/
def jsTruthy (o : Option String) : Bool :=
  match o with
  | some s => !jsIsEmpty s
  | none => false

/-- Whether a whole character list matches `\s*\([^)]+\)\s*` (so a match of
the source regex `/\s*\([^)]+\)\s*$/` starts right here): optional leading
whitespace, a parenthesized group of one or more non-`)` characters, then
only whitespace to the end. -/
def parenGroupToEnd (cs : List Char) : Bool :=
  match cs.dropWhile Char.isWhitespace with
  | '(' :: rest =>
    match rest.dropWhile (fun c => c ≠ ')') with
    | ')' :: tail =>
      if (rest.takeWhile (fun c => c ≠ ')')).isEmpty then false
      else tail.all Char.isWhitespace
    | _ => false
  | _ => false

/-- Leftmost-match scan for `stripParenSuffix`: drop everything from the
first position where the end-anchored group matches. -/
def stripParenSuffixAux : List Char → List Char
  | [] => []
  | c :: cs => if parenGroupToEnd (c :: cs) then [] else c :: stripParenSuffixAux cs

/-- The source's `name.replace(/\s*\([^)]+\)\s*$/, '')`: delete the trailing
parenthetical group.  The regex is anchored at the end and `[^)]+` cannot
cross a closing parenthesis, so JS's leftmost-first match rule picks the
earliest start position from which the pattern runs to the end. -/
def stripParenSuffix (s : String) : String :=
  String.mk (stripParenSuffixAux s.toList)

/-- `DeviceFingerprinter.enrich`, index-building phase: per-IP service-type
lists and the first non-empty cleaned display name per IP.  mDNS entities
whose `ip` is absent or empty (both falsy in JS) are skipped; a name is
recorded only when the IP has none yet and the cleaned, trimmed name is
non-empty.  `serviceType` is a required field of `BonjourServiceNode`,
optional in the flat record only because other node shapes lack it. -/
def deviceIndices (bonjourNodes : List NetworkNode) :
    List (String × List String) × List (String × String) :=
  bonjourNodes.foldl (fun acc b =>
    match b.ip with
    | none => acc
    | some ip =>
      if jsIsEmpty ip then acc
      else
        let types := alSet acc.1 ip ((alGet acc.1 ip).getD [] ++ (b.serviceType.toList))
        let names :=
          if alHas acc.2 ip then acc.2
          else
            let cleanName := jsTrim (stripParenSuffix b.name)
            if jsIsEmpty cleanName then acc.2 else alSet acc.2 ip cleanName
        (types, names)) ([], [])

/-- `DeviceFingerprinter.match`, scoring phase: +1 per matching category,
the first matching pattern per category short-circuiting.  A category is
skipped when the profile carries no pattern list or the input is falsy
(absent or empty vendor/hostname, empty service-type list). -/
def deviceScore (p : DeviceProfile) (vendor : Option String)
    (serviceTypes : List String) (hostname : String) : Nat :=
  (match p.vendorPatterns, vendor with
   | some pats, some v =>
     if ¬jsIsEmpty v ∧ pats.any (fun pattern =>
         jsIncludes (jsToLower v) (jsToLower pattern)) then 1 else 0
   | _, _ => 0) +
  (match p.serviceTypes with
   | some pats =>
     if ¬serviceTypes.isEmpty ∧ pats.any (fun svcType =>
         serviceTypes.contains svcType) then 1 else 0
   | none => 0) +
  (match p.hostnamePatterns with
   | some pats =>
     if ¬jsIsEmpty hostname ∧ pats.any (fun pattern => pattern hostname) then 1
     else 0
   | none => 0)

/-- `DeviceFingerprinter.match`, selection phase: the first strictly
higher-scoring profile in database order wins (`score > bestScore`), so no
profile is selected unless some score is positive — the source's final
`!bestProfile || bestScore === 0` rejection.  Returns the winning profile;
the source copies its `deviceType`/`productName`/`iconKey` into a result
object, read off the profile directly at the use site here. -/
def bestProfile (dps : List DeviceProfile) (vendor : Option String)
    (serviceTypes : List String) (hostname : String) : Option DeviceProfile :=
  (dps.foldl (fun best p =>
    if deviceScore p vendor serviceTypes hostname > best.2 then
      (some p, deviceScore p vendor serviceTypes hostname)
    else best) ((none : Option DeviceProfile), 0)).1

/-- `DeviceFingerprinter.enrich`, per-node phase: an already-classified
entity (truthy `deviceType`) is returned as is; otherwise the profiles are
matched against vendor, the IP's service types and the entity name, and a
match patches `deviceType`, `productName` (the IP's cleaned mDNS display
name when recorded, else the profile's product name) and `iconKey`.  The
Bool mirrors the source signalling change by a fresh object reference.  The
IP is looked up in the indices directly: they never hold the empty-string
key, so the source's `node.ip ?` truthiness guards cannot diverge. -/
def deviceEnrichNode (dps : List DeviceProfile)
    (svcIdx : List (String × List String)) (nameIdx : List (String × String))
    (node : NetworkNode) : NetworkNode × Bool :=
  if jsTruthy node.deviceType then (node, false)
  else
    match bestProfile dps node.vendor ((node.ip.bind (alGet svcIdx)).getD []) node.name with
    | none => (node, false)
    | some p =>
      ({ node with deviceType := some p.deviceType,
                   productName := some (((node.ip.bind (alGet nameIdx)).getD p.productName)),
                   iconKey := some p.iconKey }, true)

/-- `DeviceFingerprinter.enrich` over the LAN nodes, each result paired with
its changed flag (the source signals change by returning a fresh object
reference, which `classify` compares against the input slot). -/
def DeviceFingerprinter.enrich (dps : List DeviceProfile)
    (lanNodes bonjourNodes : List NetworkNode) : List (NetworkNode × Bool) :=
  let (svcIdx, nameIdx) := deviceIndices bonjourNodes
  lanNodes.map (deviceEnrichNode dps svcIdx nameIdx)

/-! ## Orchestrator scan path (services/orchestrator.ts) -/

/-- A collector result. -/
structure ScanResult where
  nodes : List NetworkNode
  edges : List NetworkEdge
  deriving DecidableEq

/-- `Orchestrator.applyResult`: upsert every node, then every edge. -/
def Orchestrator.applyResult (s : NetworkState) (r : ScanResult) (now : Nat) : NetworkState :=
  r.edges.foldl (fun st e => st.upsertEdge e)
    (r.nodes.foldl (fun st n => st.upsertNode n now) s)

/-- `Orchestrator.classify`: run the device fingerprinter over the store's
LAN nodes against its bonjour nodes and upsert every changed result. -/
def Orchestrator.classify (dps : List DeviceProfile) (s : NetworkState) (now : Nat) :
    NetworkState :=
  let allNodes := s.nodes
  let lanNodes := allNodes.filter (fun n => n.signalType = SignalType.lan)
  let bonjourNodes := allNodes.filter (fun n => n.signalType = SignalType.bonjour)
  if lanNodes.isEmpty then s
  else
    let enriched := DeviceFingerprinter.enrich dps lanNodes bonjourNodes
    enriched.foldl (fun st p => if p.2 then st.upsertNode p.1 now else st) s

/-- `Orchestrator.runScanner` after the collector resolved: apply the result,
classify after `arp`/`bonjour` scans, and publish an update.  The packet-index
refresh after `arp` and the subnet side-channel after `topology` touch neither
the store nor the update payload and are omitted. -/
def Orchestrator.runScanner (dps : List DeviceProfile) (name : String)
    (r : ScanResult) (rates : List (String × TrafficRate)) (s : NetworkState)
    (now : Nat) : NetworkState × ScannerUpdate :=
  let s1 := Orchestrator.applyResult s r now
  let s2 := if name = "arp" ∨ name = "bonjour" then Orchestrator.classify dps s1 now else s1
  (s2, Orchestrator.pushUpdate s2 rates [] now)

/-- `Orchestrator.enrichProtocols`: the 2-second enrichment flush.  For every
store node whose IP has packet aggregates, upserts the node with `protocols`,
`totalBytes` and `totalPackets` spread on; returns whether anything was
enriched (the trigger for publishing). -/
def Orchestrator.enrichProtocols (s : NetworkState)
    (protocolsByIp : List (String × List (String × Nat)))
    (bytesByIp : List (String × Int)) (packetsByIp : List (String × Nat))
    (now : Nat) : NetworkState × Bool :=
  s.nodes.foldl (fun acc node =>
    match node.ip with
    | none => acc
    | some ip =>
      match alGet protocolsByIp ip with
      | none => acc
      | some protocols =>
        let totalBytes := (alGet bytesByIp ip).getD 0
        let totalPackets := (alGet packetsByIp ip).getD 0
        (acc.1.upsertNode
          { node with protocols := some protocols, totalBytes := some totalBytes,
                      totalPackets := some totalPackets } now, true)) (s, false)

/-- Outcome of `Orchestrator.startPacketCapture`. -/
inductive StartOutcome
  | failed (error : String)
  | started (iface : String)
  deriving DecidableEq

/-- `Orchestrator.startPacketCapture` distilled to its interface decision:
the tool-availability check, the caller interface (falling back to the
detected default only when none is given), and the validation against the
enumerated interface list. -/
def Orchestrator.startPacketCapture (available : Bool) (statusError : Option String)
    (interfaces : List String) (iface : Option String) (defaultIface : String) :
    StartOutcome :=
  if ¬available then StartOutcome.failed (statusError.getD "tshark not found")
  else
    let targetIface := iface.getD defaultIface
    if ¬interfaces.isEmpty ∧ ¬interfaces.contains targetIface then
      StartOutcome.failed ("Interface " ++ targetIface ++ " not found. Available: " ++
        jsJoin ", " interfaces)
    else StartOutcome.started targetIface

/-! ## Link-Layer neighbor collector (scanners/arp.ts) -/

/-- Character class `[0-9a-f:]` under the regex `i` flag. -/
def isMacChar (c : Char) : Bool :=
  c.isDigit ∨ ('a' ≤ c ∧ c ≤ 'f') ∨ ('A' ≤ c ∧ c ≤ 'F') ∨ c = ':'

/-- Consume a non-empty maximal run of characters satisfying `p`. -/
def takeWhile1 (p : Char → Bool) (cs : List Char) : Option (List Char × List Char) :=
  let t := cs.takeWhile p
  if t.isEmpty then none else some (t, cs.drop t.length)

/-- Consume a literal case-insensitively. -/
def expectCI : List Char → List Char → Option (List Char)
  | [], cs => some cs
  | _ :: _, [] => none
  | l :: ls, c :: cs => if c.toLower = l.toLower then expectCI ls cs else none

/-- Match the neighbor-table regex
`\?\s+\(([^)]+)\)\s+at\s+([0-9a-f:]+)\s+on\s+(\S+)` (flag `i`) at the head of
the character list, returning the three capture groups.  All adjacent
character classes of the pattern are disjoint, so the greedy left-to-right
match needs no backtracking. -/
def matchArpAt (cs : List Char) : Option (String × String × String) := do
  let r0 ← match cs with | '?' :: r => some r | _ => none
  let (_, r1) ← takeWhile1 Char.isWhitespace r0
  let r2 ← match r1 with | '(' :: r => some r | _ => none
  let (ipCs, r3) ← takeWhile1 (fun c => c ≠ ')') r2
  let r4 ← match r3 with | ')' :: r => some r | _ => none
  let (_, r5) ← takeWhile1 Char.isWhitespace r4
  let r6 ← expectCI "at".toList r5
  let (_, r7) ← takeWhile1 Char.isWhitespace r6
  let (macCs, r8) ← takeWhile1 isMacChar r7
  let (_, r9) ← takeWhile1 Char.isWhitespace r8
  let r10 ← expectCI "on".toList r9
  let (_, r11) ← takeWhile1 Char.isWhitespace r10
  let (ifCs, _) ← takeWhile1 (fun c => ¬c.isWhitespace) r11
  return (String.mk ipCs, String.mk macCs, String.mk ifCs)

/-- JS `line.match(arpRegex)`: first position where the pattern matches. -/
def findArpMatch : List Char → Option (String × String × String)
  | [] => none
  | c :: rest =>
    match matchArpAt (c :: rest) with
    | some r => some r
    | none => findArpMatch rest

/-- Parse one neighbor-table line into `(ip, mac, iface)` capture groups. -/
def parseArpLine (line : String) : Option (String × String × String) :=
  findArpMatch line.toList

/-- `normalizeMac`: zero-pad each colon-separated octet group to two
characters (macOS short forms). -/
def normalizeMac (mac : String) : String :=
  jsJoin ":" ((splitChar ':' mac).map (fun o => jsPadStart o 2 '0'))

/-- `lookupVendor`: vendor by the uppercased first eight characters of the
normalized MAC in the OUI database (data loaded at process start). -/
def lookupVendor (ouiDb : List (String × String)) (mac : String) : Option String :=
  alGet ouiDb (jsToUpper (jsSliceTo (normalizeMac mac) 8))

/-- The per-line body of `ArpScanner.scan`: the regex match, the
incomplete/broadcast filter, the gateway heuristic, and the produced LAN
node and relation. -/
def ArpScanner.scanLine (ouiDb : List (String × String)) (line : String)
    (now : Nat) : Option (NetworkNode × NetworkEdge) :=
  match parseArpLine line with
  | none => none
  | some (ip, mac, iface) =>
    if mac = "(incomplete)" ∨ mac = "ff:ff:ff:ff:ff:ff" then none
    else
      let isGateway := jsIncludes line "ifscope" ∧ jsEndsWith ip ".1"
      let vendor := lookupVendor ouiDb mac
      let id := "lan-" ++ mac
      let node : NetworkNode :=
        { id := id, signalType := SignalType.lan,
          name := match vendor with
            | some v => v ++ " (" ++ ip ++ ")"
            | none => ip,
          status := NodeStatus.active, firstSeen := now, lastSeen := now,
          mac := some mac, ip := some ip, iface := some iface,
          isGateway := some isGateway, vendor := vendor }
      let edge : NetworkEdge :=
        { id := "edge-this-" ++ id, source := "this-device", target := id,
          type := if isGateway then EdgeType.gateway else EdgeType.connectedTo }
      some (node, edge)

/-- `ArpScanner.scan` over complete stdout: split into lines, drop empties,
collect per-line results. -/
def ArpScanner.scan (ouiDb : List (String × String)) (stdout : String)
    (now : Nat) : ScanResult :=
  let lines := (splitChar '\n' stdout).filter (fun l => ¬jsIsEmpty l)
  let results := lines.filterMap (fun l => ArpScanner.scanLine ouiDb l now)
  { nodes := results.map (·.1), edges := results.map (·.2) }

/-! ## Packet pipeline (scanners/packet.ts) -/

def MAX_EVENTS : Nat := 10000
def MAX_EVENTS_PER_DRAIN : Nat := 10

structure PacketEvent where
  id : String
  timestamp : Int
  nodeId : Option String
  srcIp : String
  dstIp : String
  protocol : String
  length : Int
  info : String
  deriving DecidableEq

/-- The `PacketScanner`'s mutable state: the bounded event ring, the pending
drain queue, the sequence counter, the per-IP aggregates, the correlation
index, and whether an event consumer callback is registered. -/
structure PacketScanner where
  events : List PacketEvent := []
  pendingEvents : List PacketEvent := []
  eventSeq : Nat := 0
  protocolsByIp : List (String × List (String × Nat)) := []
  bytesByIp : List (String × Int) := []
  packetsByIp : List (String × Nat) := []
  ipIndex : List (String × String) := []
  thisDeviceIps : List String := []
  hasConsumer : Bool := false
  deriving DecidableEq

/-- Aggregation step for one of the packet's two IPs (skipping Host IPs). -/
def PacketScanner.aggregateIp (ps : PacketScanner) (ip : String) (proto : String)
    (len : Int) : PacketScanner :=
  if ps.thisDeviceIps.contains ip then ps
  else
    let protos := (alGet ps.protocolsByIp ip).getD []
    let protos := alSet protos proto ((alGet protos proto).getD 0 + 1)
    { ps with
        protocolsByIp := alSet ps.protocolsByIp ip protos,
        bytesByIp := alSet ps.bytesByIp ip ((alGet ps.bytesByIp ip).getD 0 + len),
        packetsByIp := alSet ps.packetsByIp ip ((alGet ps.packetsByIp ip).getD 0 + 1) }

/-- `PacketScanner.parseLine`: parse one pipe-separated tshark line, record
the event in the ring (evicting the oldest at capacity) and the pending
queue, and update the per-IP aggregates. -/
def PacketScanner.parseLine (ps : PacketScanner) (line : String) (now : Int) :
    PacketScanner :=
  let parts := splitChar '|' line
  if parts.length < 7 then ps
  else
    let tsRaw := parts.getD 0 ""
    let srcIp4 := parts.getD 1 ""
    let dstIp4 := parts.getD 2 ""
    let srcIp6 := parts.getD 3 ""
    let dstIp6 := parts.getD 4 ""
    let protocol := parts.getD 5 ""
    let lenRaw := parts.getD 6 ""
    let infoParts := parts.drop 7
    let srcIp := if jsIsEmpty srcIp4 then srcIp6 else srcIp4
    let dstIp := if jsIsEmpty dstIp4 then dstIp6 else dstIp4
    if jsIsEmpty srcIp ∨ jsIsEmpty dstIp then ps
    else
      let ts : Int :=
        match jsParseFloat tsRaw with
        | none => now
        | some f => let t := jsRound (f * 1000); if t = 0 then now else t
      let len : Int := (jsParseInt lenRaw).getD 0
      let proto := if jsIsEmpty (jsTrim protocol) then "Unknown" else jsTrim protocol
      let info := jsSliceTo (jsJoin "|" infoParts) 80
      let srcNodeId := alGet ps.ipIndex srcIp
      let dstNodeId := alGet ps.ipIndex dstIp
      let nodeId :=
        if srcNodeId.isSome ∧ srcNodeId ≠ some "this-device" then srcNodeId
        else if dstNodeId.isSome ∧ dstNodeId ≠ some "this-device" then dstNodeId
        else srcNodeId <|> dstNodeId
      let seq := ps.eventSeq + 1
      let event : PacketEvent :=
        { id := "pkt-" ++ toString seq, timestamp := ts, nodeId := nodeId,
          srcIp := srcIp, dstIp := dstIp, protocol := proto, length := len,
          info := info }
      let ring := if ps.events.length ≥ MAX_EVENTS then ps.events.drop 1 else ps.events
      let ps := { ps with eventSeq := seq, events := ring ++ [event],
                          pendingEvents := ps.pendingEvents ++ [event] }
      (ps.aggregateIp srcIp proto len).aggregateIp dstIp proto len

/-- `PacketScanner.drainEvents`: deliver (and discard from pending) up to 10
events if a consumer callback is registered. -/
def PacketScanner.drainEvents (ps : PacketScanner) : PacketScanner :=
  if ps.pendingEvents.isEmpty then ps
  else if ¬ps.hasConsumer then ps
  else { ps with pendingEvents := ps.pendingEvents.drop MAX_EVENTS_PER_DRAIN }

/-- An interleaving step of the pipeline: a stdout line arriving, or a
100 ms drain-timer firing. -/
inductive PacketOp
  | ingest (line : String) (now : Int)
  | drain

def PacketScanner.step (ps : PacketScanner) : PacketOp → PacketScanner
  | PacketOp.ingest line now => ps.parseLine line now
  | PacketOp.drain => ps.drainEvents

/-- Run an arbitrary interleaving of ingests and drains. -/
def PacketScanner.run (ps : PacketScanner) (ops : List PacketOp) : PacketScanner :=
  ops.foldl PacketScanner.step ps

/-- The pipeline state at capture start. -/
def PacketScanner.init (hasConsumer : Bool) : PacketScanner :=
  { hasConsumer := hasConsumer }

/-! ## Throughput collector (scanners/traffic.ts) -/

structure NettopSample where
  bytesIn : Int
  bytesOut : Int
  deriving DecidableEq

/-- The `TrafficScanner`'s private state. -/
structure TrafficScanner where
  prevSample : List (String × NettopSample) := []
  prevTimestamp : Nat := 0
  rates : List (String × TrafficRate) := []
  deriving DecidableEq

/-- Test of `/^\d+\.\d+\.\d+\.\d+$/`. -/
def looksIpv4 (s : String) : Bool :=
  let parts := splitChar '.' s
  parts.length = 4 ∧ parts.all (fun p => ¬jsIsEmpty p ∧ p.toList.all Char.isDigit)

/-- IPv6 fallback branch of `parseHostPort` (nettop `.port` suffix). -/
def parseHostPortDot (addr : String) : Option (String × Int) :=
  let lastDot := jsLastIndexOf addr '.'
  if lastDot > 0 then
    let maybePort := jsSliceFrom addr (lastDot.toNat + 1)
    match jsParseInt maybePort with
    | some port =>
      if port > 0 then
        let host := jsSliceTo addr lastDot.toNat
        let host := if jsStartsWith host "[" then jsSliceFrom host 1 else host
        let host := if jsEndsWith host "]" then jsSliceTo host (host.length - 1) else host
        some (host, port)
      else none
    | none => none
  else none

/-- `TrafficScanner.parseHostPort`: IPv4 `host:port` first (last colon), then
the IPv6 `.port` form. -/
def TrafficScanner.parseHostPort (addr : String) : Option (String × Int) :=
  let lastColon := jsLastIndexOf addr ':'
  let colonTry : Option (String × Int) :=
    if lastColon > 0 then
      let maybPort := jsSliceFrom addr (lastColon.toNat + 1)
      match jsParseInt maybPort with
      | some port =>
        if port > 0 then
          let host := jsSliceTo addr lastColon.toNat
          if (jsIncludes host "." ∧ ¬jsIncludes host ":") ∨ looksIpv4 host then
            some (host, port)
          else none
        else none
      | none => none
    else none
  colonTry <|> parseHostPortDot addr

/-- Strip the regex `^\s*(tcp[46]?|udp[46]?)\s+` (flag `i`) from the head of
a nettop name field; on no match, the field is unchanged. -/
def stripProtoTag (s : String) : String :=
  let cs := s.toList.dropWhile Char.isWhitespace
  let afterProto : Option (List Char) :=
    (expectCI "tcp".toList cs) <|> (expectCI "udp".toList cs)
  match afterProto with
  | none => s
  | some r =>
    let r := match r with
      | '4' :: rest => rest
      | '6' :: rest => rest
      | rest => rest
    match takeWhile1 Char.isWhitespace r with
    | some (_, rest) => String.mk rest
    | none => s

/-- `TrafficScanner.parseSocketLine`: extract the remote side and build a
`conn-TCP-{host}-{port}-{process}` key, skipping loopback. -/
def TrafficScanner.parseSocketLine (nameField processName : String) : Option String :=
  let connPart := jsTrim (stripProtoTag nameField)
  let separator := if jsIncludes connPart "<->" then "<->" else "->"
  let sides := splitStr separator connPart
  if sides.length ≠ 2 then none
  else
    let remote := jsTrim (sides.getD 1 "")
    match TrafficScanner.parseHostPort remote with
    | none => none
    | some (host, port) =>
      if host = "127.0.0.1" ∨ host = "::1" then none
      else some ("conn-TCP-" ++ host ++ "-" ++ toString port ++ "-" ++ processName)

/-- Per-line step of the nettop CSV walk, threading the current process name
and the accumulated sample. -/
def trafficLineStep (acc : String × List (String × NettopSample)) (line : String) :
    String × List (String × NettopSample) :=
  let (currentProcess, currentSample) := acc
  if jsIsEmpty (jsTrim line) then acc
  else
    let parts := (splitChar ',' line).map jsTrim
    if parts.length < 3 then acc
    else
      let nameField := parts.getD 0 ""
      match jsParseInt (parts.getD 1 ""), jsParseInt (parts.getD 2 "") with
      | some bytesIn, some bytesOut =>
        if jsIncludes nameField "<->" ∨ jsIncludes nameField "->" then
          match TrafficScanner.parseSocketLine nameField currentProcess with
          | some connId =>
            (currentProcess, alSet currentSample connId
              { bytesIn := bytesIn, bytesOut := bytesOut })
          | none => acc
        else
          let dotIdx := jsLastIndexOf nameField '.'
          if dotIdx > 0 then
            let maybePid := jsSliceFrom nameField (dotIdx.toNat + 1)
            if ¬jsIsEmpty maybePid ∧ maybePid.toList.all Char.isDigit then
              (jsTrim (jsSliceTo nameField dotIdx.toNat), currentSample)
            else (jsTrim nameField, currentSample)
          else (jsTrim nameField, currentSample)
      | _, _ => acc

/-- `TrafficScanner.processSample`: parse the CSV sample; when a previous
sample and a positive elapsed interval exist, rebuild the rate map wholesale
from the per-connection byte deltas; always store the new sample and
timestamp. -/
def TrafficScanner.processSample (st : TrafficScanner) (stdout : String)
    (now : Nat) : TrafficScanner :=
  let elapsed : Rat :=
    if st.prevTimestamp > 0 then ((now : Rat) - (st.prevTimestamp : Rat)) / 1000 else 0
  let lines := splitChar '\n' stdout
  let currentSample := (lines.foldl trafficLineStep ("", [])).2
  let rates :=
    if elapsed > 0 ∧ ¬st.prevSample.isEmpty then
      currentSample.foldl (fun newRates p =>
        match alGet st.prevSample p.1 with
        | some prev =>
          let deltaIn : Int := max 0 (p.2.bytesIn - prev.bytesIn)
          let deltaOut : Int := max 0 (p.2.bytesOut - prev.bytesOut)
          let totalRate : Rat := ((deltaIn + deltaOut : Int) : Rat) / elapsed
          if totalRate > 0 then
            alSet newRates p.1
              { bytesPerSec := totalRate,
                bytesInPerSec := (deltaIn : Rat) / elapsed,
                bytesOutPerSec := (deltaOut : Rat) / elapsed }
          else newRates
        | none => newRates) []
    else st.rates
  { prevSample := currentSample, prevTimestamp := now, rates := rates }

/-- `TrafficScanner.scan`: a failed subprocess invocation (`none`) leaves the
whole state untouched; a successful one feeds stdout to `processSample`. -/
def TrafficScanner.scan (st : TrafficScanner) (outcome : Option String)
    (now : Nat) : TrafficScanner :=
  match outcome with
  | none => st
  | some stdout => st.processSample stdout now

/-! ## Specification-side reformulations

These definitions follow the wording of the specification claims (amended
where a counterexample forces it); the theorems below relate them to the
source-derived definitions above. -/

/-- Spec wording: a tick at time `now` removes a non-Host entity whose age
strictly exceeds the remove threshold. -/
def specRemoves (now : Nat) (n : NetworkNode) : Bool :=
  n.signalType ≠ SignalType.thisDevice ∧ (now : Int) - (n.lastSeen : Int) > (removeAfterMs : Int)

/-- Spec wording: the per-entity fate under one tick — `none` for deletion,
otherwise the entity with its status advanced as the thresholds dictate, the
Host exempt. -/
def specTickNode (now : Nat) (n : NetworkNode) : Option NetworkNode :=
  if n.signalType = SignalType.thisDevice then some n
  else if (now : Int) - (n.lastSeen : Int) > (removeAfterMs : Int) then none
  else if (now : Int) - (n.lastSeen : Int) > (expiredAfterMs : Int) ∧
      n.status ≠ NodeStatus.expired then
    some { n with status := NodeStatus.expired }
  else if (now : Int) - (n.lastSeen : Int) > (staleAfterMs : Int) ∧
      n.status ≠ NodeStatus.stale ∧ n.status ≠ NodeStatus.expired then
    some { n with status := NodeStatus.stale }
  else some n

/-- Spec wording: the whole tick as independent per-entity fates — surviving
entities in order, relations pruned of every removed endpoint, removed ids in
store order, and the flag saying whether some entity's status changed. -/
def NetworkState.specTick (s : NetworkState) (now : Nat) :
    NetworkState × List String × Bool :=
  let removed := (s.nodes.filter (specRemoves now)).map (fun n => n.id)
  ({ nodes := s.nodes.filterMap (specTickNode now),
     edges := s.edges.filter (fun e =>
       ¬removed.contains e.source ∧ ¬removed.contains e.target) },
   removed,
   s.nodes.any (fun n =>
     match specTickNode now n with
     | some m => m ≠ n
     | none => false))

/-- Spec wording (claim C7): a published entity copy carries the three
throughput fields exactly when its id is a key of the rate map. -/
def specAttachNodeRate (rates : List (String × TrafficRate)) (n : NetworkNode) :
    NetworkNode :=
  match alGet rates n.id with
  | some r => nodeWithRate n r
  | none => n

/-- Spec wording (claim C7): a published relation copy carries the three
throughput fields exactly when its target or source id is a key of the rate
map (target preferred). -/
def specAttachEdgeRate (rates : List (String × TrafficRate)) (e : NetworkEdge) :
    NetworkEdge :=
  match alGet rates e.target <|> alGet rates e.source with
  | some r => edgeWithRate e r
  | none => e

/-- Spec wording (claim C8, original): the lower median — the element at
position `⌈n/2⌉ − 1 = (n − 1) / 2` of the ascending-sorted window. -/
def specLowerMedian (ttls : List Int) : Option Int :=
  if ttls.isEmpty then none
  else some ((jsSortNums ttls).getD ((ttls.length - 1) / 2) 0)

/-- Spec wording (claim C8, amended): the upper median — the element at
position `⌊n/2⌋` of the ascending-sorted window. -/
def specUpperMedian (ttls : List Int) : Option Int :=
  if ttls.isEmpty then none
  else some ((jsSortNums ttls).getD (ttls.length / 2) 0)

/-- Spec wording (claim C8): the TTL signal a profile contributes when the
representative TTL falls in its range. -/
def specTtlSignal (rep : Int) (profile : OsProfile) : Option OsSignal :=
  match profile.ttlRange with
  | none => none
  | some (lo, hi) =>
    if lo ≤ rep ∧ rep ≤ hi then
      some { source := OsSignalSource.ttl, osFamily := profile.osFamily,
             confidence := 3/10, raw := some (toString rep) }
    else none

/-- The OS-enrichment field triple of a node. -/
def osTriple (n : NetworkNode) :
    Option OsFamily × Option DeviceCategory × Option Rat :=
  (n.osFamily, n.deviceCategory, n.osFingerprintConfidence)

/-! ## Concrete fixtures used in closed evaluations -/

/-- A Bluetooth entity as the Bluetooth collector discovers it: no OS fields. -/
def iphoneNode : NetworkNode :=
  { id := "bt-iPhone", signalType := SignalType.bluetooth, name := "iPhone",
    status := NodeStatus.active, firstSeen := 0, lastSeen := 0 }

/-- An OS profile whose Bluetooth name pattern matches `iPhone`. -/
def iosBtProfile : OsProfile :=
  { id := "ios", osFamily := OsFamily.ios,
    bluetoothNamePatterns := some [fun n => n == "iPhone"] }

/-- The Bluetooth-name signal `OsEnricher` gathers for `iphoneNode` against
`iosBtProfile` (weight 0.5). -/
def iphoneSignal : OsSignal :=
  { source := OsSignalSource.bluetoothName, osFamily := OsFamily.ios,
    confidence := 5/10, raw := some "iPhone" }

/-! ## Helper lemmas -/

theorem orElse_self {α : Type} (a : Option α) : (a <|> a) = a := by
  cases a <;> rfl

theorem orElse_absorb {α : Type} (a b : Option α) : (a <|> (a <|> b)) = (a <|> b) := by
  cases a <;> rfl

theorem mem_nodesSet {l : List NetworkNode} {id : String} {x m : NetworkNode}
    (h : m ∈ nodesSet l id x) : m = x ∨ m ∈ l := by
  induction l with
  | nil => simp [nodesSet] at h
  | cons a rest ih =>
    by_cases ha : a.id = id
    · simp [nodesSet, ha] at h
      rcases h with h | h
      · exact Or.inl h
      · exact Or.inr (List.mem_cons_of_mem _ h)
    · simp [nodesSet, ha] at h
      rcases h with h | h
      · exact Or.inr (by simp [h])
      · rcases ih h with h' | h'
        · exact Or.inl h'
        · exact Or.inr (List.mem_cons_of_mem _ h')

theorem find?_nodesSet {l : List NetworkNode} {id : String} {m : NetworkNode}
    (hm : m.id = id) (h : (l.find? (fun n => n.id = id)).isSome) :
    (nodesSet l id m).find? (fun n => n.id = id) = some m := by
  induction l with
  | nil => simp [List.find?] at h
  | cons a rest ih =>
    by_cases ha : a.id = id
    · simp [nodesSet, ha, List.find?, hm]
    · simp only [nodesSet, if_neg ha]
      rw [List.find?_cons_of_neg _ (by simpa using ha)]
      rw [List.find?_cons_of_neg _ (by simpa using ha)] at h
      exact ih h

theorem find?_append_single {l : List NetworkNode} {p : NetworkNode → Bool}
    {x : NetworkNode} (h : l.find? p = none) (hx : p x = true) :
    (l ++ [x]).find? p = some x := by
  induction l with
  | nil => simp [List.find?, hx]
  | cons a rest ih =>
    have hpa : p a = false := by
      cases hp : p a
      · rfl
      · rw [List.find?_cons_of_pos _ hp] at h; exact Option.noConfusion h
    have hrest : rest.find? p = none := by
      rw [List.find?_cons_of_neg _ (by simp [hpa])] at h; exact h
    rw [List.cons_append, List.find?_cons_of_neg _ (by simp [hpa])]
    exact ih hrest

theorem nodesSet_idem {l : List NetworkNode} {id : String} {m : NetworkNode}
    (hm : m.id = id) :
    nodesSet (nodesSet l id m) id m = nodesSet l id m := by
  induction l with
  | nil => rfl
  | cons a rest ih =>
    by_cases ha : a.id = id
    · simp [nodesSet, ha, hm]
    · simp [nodesSet, ha, ih]

theorem nodesSet_append_self {l : List NetworkNode} {id : String} {x : NetworkNode}
    (h : ∀ n ∈ l, ¬(n.id = id)) (hx : x.id = id) :
    nodesSet (l ++ [x]) id x = l ++ [x] := by
  induction l with
  | nil => simp [nodesSet, hx]
  | cons a rest ih =>
    have ha : ¬(a.id = id) := h a (by simp)
    simp only [List.cons_append, nodesSet, if_neg ha]
    show a :: nodesSet (rest ++ [x]) id x = a :: (rest ++ [x])
    rw [ih (fun n hn => h n (by simp [hn]))]

/-! ## Claim theorems -/

/-- C9: performing `upsert(e)` twice in immediate succession (both calls
reading the same clock value `t`) yields the same store as a single
`upsert(e)`: `firstSeen` keeps its original value, `lastSeen` equals the
call's current time, `status` is `active`, and every other field equals `e`'s
fields merged over the pre-existing record. -/
theorem upsertNode_idempotent (s : NetworkState) (e : NetworkNode) (t : Nat) :
    (s.upsertNode e t).upsertNode e t = s.upsertNode e t ∧
    (s.upsertNode e t).findNode e.id =
      (match s.findNode e.id with
       | some old => some (upsertMerge old e t)
       | none => some (upsertFresh e t)) := by
  rcases h : s.findNode e.id with _ | old
  · -- fresh insertion
    have hfind : s.nodes.find? (fun n => n.id = e.id) = none := h
    have hs1 : s.upsertNode e t = { s with nodes := s.nodes ++ [upsertFresh e t] } := by
      simp only [NetworkState.upsertNode, NetworkState.findNode, hfind]
    have hfind2 : (s.nodes ++ [upsertFresh e t]).find? (fun n => n.id = e.id) =
        some (upsertFresh e t) := by
      refine find?_append_single hfind ?_
      simp [upsertFresh]
    have hfresh : (s.upsertNode e t).findNode e.id = some (upsertFresh e t) := by
      rw [hs1]; exact hfind2
    refine ⟨?_, by rw [hfresh]⟩
    have hmerge : upsertMerge (upsertFresh e t) e t = upsertFresh e t := by
      simp [upsertMerge, upsertFresh, mergeNode, orElse_self]
    have hall : ∀ n ∈ s.nodes, ¬(n.id = e.id) := fun n hn => by
      simpa using List.find?_eq_none.mp hfind n hn
    rw [hs1]
    simp only [NetworkState.upsertNode, NetworkState.findNode, hfind2]
    rw [hmerge, nodesSet_append_self hall (by simp [upsertFresh])]
  · -- merge over existing
    have heq : s.nodes.find? (fun n => n.id = e.id) = some old := h
    have hfind : (s.nodes.find? (fun n => n.id = e.id)).isSome := by simp [heq]
    have hs1 : s.upsertNode e t =
        { s with nodes := nodesSet s.nodes e.id (upsertMerge old e t) } := by
      simp only [NetworkState.upsertNode, NetworkState.findNode, heq]
    have hid : (upsertMerge old e t).id = e.id := by simp [upsertMerge, mergeNode]
    have hfind2 : (nodesSet s.nodes e.id (upsertMerge old e t)).find?
        (fun n => n.id = e.id) = some (upsertMerge old e t) := find?_nodesSet hid hfind
    have hm1 : (s.upsertNode e t).findNode e.id = some (upsertMerge old e t) := by
      rw [hs1]; exact hfind2
    refine ⟨?_, by rw [hm1]⟩
    have hmerge : upsertMerge (upsertMerge old e t) e t = upsertMerge old e t := by
      simp [upsertMerge, mergeNode, orElse_absorb]
    rw [hs1]
    simp only [NetworkState.upsertNode, NetworkState.findNode, hfind2]
    rw [hmerge, nodesSet_idem hid]

/-- C10: a Throughput scan that fails, is the first sample since startup,
has no previous sample entries, or has no positive elapsed interval leaves
the published per-connection rate map exactly as it was; only a successful
scan with a previous sample and positive elapsed time to diff against
replaces it. -/
theorem traffic_rates_persist (st : TrafficScanner) (outcome : Option String) (now : Nat)
    (h : outcome = none ∨ st.prevTimestamp = 0 ∨ st.prevSample = [] ∨
      now ≤ st.prevTimestamp) :
    (st.scan outcome now).rates = st.rates := by
  rcases outcome with _ | stdout
  · rfl
  · have hcond : ¬((if st.prevTimestamp > 0 then
        ((now : Rat) - (st.prevTimestamp : Rat)) / 1000 else 0) > 0 ∧
        ¬st.prevSample.isEmpty = true) := by
      rcases h with h | h | h | h
      · exact absurd h (by simp)
      · simp [h]
      · simp [h]
      · rintro ⟨h1, _⟩
        revert h1
        split
        · intro h1
          rcases div_pos_iff.mp h1 with ⟨hnum, _⟩ | ⟨_, hden⟩
          · have hle : (now : Rat) ≤ (st.prevTimestamp : Rat) := by exact_mod_cast h
            linarith
          · norm_num at hden
        · intro h1; exact absurd h1 (by norm_num)
    show (st.processSample stdout now).rates = st.rates
    simp only [TrafficScanner.processSample]
    rw [if_neg hcond]

/-- C10 witness: a failed scan at a state holding rates keeps them. -/
theorem traffic_rates_persist_witness :
    (TrafficScanner.scan
      { prevSample := [("conn-TCP-1.2.3.4-443-x", { bytesIn := 5, bytesOut := 5 })],
        prevTimestamp := 1000,
        rates := [("conn-TCP-1.2.3.4-443-x",
          { bytesPerSec := 7, bytesInPerSec := 3, bytesOutPerSec := 4 })] }
      none 4000).rates =
    [("conn-TCP-1.2.3.4-443-x",
      { bytesPerSec := 7, bytesInPerSec := 3, bytesOutPerSec := 4 })] :=
  traffic_rates_persist _ none 4000 (Or.inl rfl)

/-- C6 counterexample: with tshark available, interfaces enumerated as
`["en0"]` and default interface `en0`, a start request naming the unknown
interface `weird0` fails instead of starting capture on the default. -/
theorem startPacketCapture_no_fallback :
    Orchestrator.startPacketCapture true none ["en0"] (some "weird0") "en0" =
      StartOutcome.failed "Interface weird0 not found. Available: en0" ∧
    Orchestrator.startPacketCapture true none ["en0"] (some "weird0") "en0" ≠
      StartOutcome.started "en0" := by decide

/-- C6 (amended): a caller-provided interface name absent from the non-empty
enumerated interface list makes start fail with an error naming it; the
default-route interface is consulted only when the caller provides no
interface. -/
theorem startPacketCapture_unknown_iface (interfaces : List String)
    (statusError : Option String) (iface defaultIface : String)
    (h1 : interfaces ≠ []) (h2 : iface ∉ interfaces) :
    Orchestrator.startPacketCapture true statusError interfaces (some iface) defaultIface =
      StartOutcome.failed ("Interface " ++ iface ++ " not found. Available: " ++
        jsJoin ", " interfaces) ∧
    Orchestrator.startPacketCapture true statusError interfaces none defaultIface =
      (if defaultIface ∈ interfaces then StartOutcome.started defaultIface
       else StartOutcome.failed ("Interface " ++ defaultIface ++ " not found. Available: " ++
         jsJoin ", " interfaces)) := by
  constructor
  · simp [Orchestrator.startPacketCapture, h1, h2, List.isEmpty_iff]
  · by_cases hd : defaultIface ∈ interfaces <;>
      simp [Orchestrator.startPacketCapture, h1, hd, List.isEmpty_iff]

/-- C6 witness: the amended behavior at a concrete interface list. -/
theorem startPacketCapture_unknown_iface_witness :
    Orchestrator.startPacketCapture true none ["en0"] (some "awdl9") "en1" =
      StartOutcome.failed ("Interface " ++ "awdl9" ++ " not found. Available: " ++
        jsJoin ", " ["en0"]) :=
  (startPacketCapture_unknown_iface ["en0"] none "awdl9" "en1"
    (by decide) (by decide)).1

/-- C7: publishing attaches `bytesPerSec`, `bytesInPerSec` and
`bytesOutPerSec` to exactly those outbound entity copies whose id is a key
of the throughput rate map, and to those relation copies whose target or
source id is a key; the payload consists of fresh copies computed from the
store, which the publish step reads but never writes. -/
theorem pushUpdate_boundary_enrichment (s : NetworkState)
    (rates : List (String × TrafficRate)) (removed : List String) (now : Nat) :
    (Orchestrator.pushUpdate s rates removed now).nodes =
      s.nodes.map (specAttachNodeRate rates) ∧
    (Orchestrator.pushUpdate s rates removed now).edges =
      s.edges.map (specAttachEdgeRate rates) ∧
    (Orchestrator.pushUpdate s rates removed now).removed = removed ∧
    (Orchestrator.pushUpdate s rates removed now).timestamp = now := by
  refine ⟨?_, ?_, rfl, rfl⟩
  · show Orchestrator.enrichNodes rates s.nodes = _
    unfold Orchestrator.enrichNodes
    by_cases hr : rates.isEmpty
    · rw [if_pos hr]
      rw [List.isEmpty_iff.mp hr]
      have hpoint : ∀ n ∈ s.nodes, specAttachNodeRate [] n = n :=
        fun n _ => by simp [specAttachNodeRate, alGet]
      rw [List.map_congr_left hpoint]
      simp
    · rw [if_neg hr]
      rfl
  · show Orchestrator.enrichEdges rates s.edges = _
    unfold Orchestrator.enrichEdges
    by_cases hr : rates.isEmpty
    · rw [if_pos hr]
      rw [List.isEmpty_iff.mp hr]
      have hpoint : ∀ e ∈ s.edges, specAttachEdgeRate [] e = e :=
        fun e _ => by simp [specAttachEdgeRate, alGet]
      rw [List.map_congr_left hpoint]
      simp
    · rw [if_neg hr]
      rfl

/-- The insertion sort is a permutation of its input. -/
theorem jsSortNums_perm (l : List Int) : List.Perm (jsSortNums l) l := by
  induction l with
  | nil => rfl
  | cons x xs ih =>
    have h1 : jsSortNums (x :: xs) = (jsSortNums xs).orderedInsert (· ≤ ·) x := rfl
    rw [h1]
    exact (List.perm_orderedInsert _ _ _).trans (ih.cons x)

/-- C5 counterexample: the short-form neighbor entry `8:0:20:1:2:3` yields
the LAN id `lan-8:0:20:1:2:3` built from the raw MAC text, not the
normalized `lan-08:00:20:01:02:03` the claim requires. -/
theorem arpScanLine_not_normalized :
    (ArpScanner.scanLine [] "? (192.168.1.42) at 8:0:20:1:2:3 on en0" 0).map
      (fun p => p.1.id) = some "lan-8:0:20:1:2:3" ∧
    normalizeMac "8:0:20:1:2:3" = "08:00:20:01:02:03" ∧
    "lan-8:0:20:1:2:3" ≠ "lan-" ++ normalizeMac "8:0:20:1:2:3" := by decide

/-- C5 (amended): every neighbor-table entry accepted by the Link-Layer
collector produces a LAN entity whose id is `lan-` followed by the raw MAC
exactly as matched, with the `mac` field holding the same raw text; the
zero-padded normalized form is used only inside the vendor lookup. -/
theorem arpScanLine_raw_mac (ouiDb : List (String × String)) (line : String)
    (now : Nat) (ip mac iface : String)
    (hp : parseArpLine line = some (ip, mac, iface))
    (hm1 : mac ≠ "(incomplete)") (hm2 : mac ≠ "ff:ff:ff:ff:ff:ff") :
    ∃ node edge, ArpScanner.scanLine ouiDb line now = some (node, edge) ∧
      node.id = "lan-" ++ mac ∧ node.mac = some mac ∧ node.ip = some ip ∧
      node.vendor = lookupVendor ouiDb mac ∧ edge.target = "lan-" ++ mac := by
  simp only [ArpScanner.scanLine, hp]
  rw [if_neg (by simp [hm1, hm2])]
  exact ⟨_, _, rfl, rfl, rfl, rfl, rfl, rfl⟩

/-- C5 witness: the amended statement at a concrete short-form entry. -/
theorem arpScanLine_raw_mac_witness :
    parseArpLine "? (192.168.1.42) at 8:0:20:1:2:3 on en0" =
      some ("192.168.1.42", "8:0:20:1:2:3", "en0") ∧
    (∃ node edge,
      ArpScanner.scanLine [] "? (192.168.1.42) at 8:0:20:1:2:3 on en0" 5 =
        some (node, edge) ∧
      node.id = "lan-" ++ "8:0:20:1:2:3" ∧ node.mac = some "8:0:20:1:2:3" ∧
      node.ip = some "192.168.1.42" ∧ node.vendor = lookupVendor [] "8:0:20:1:2:3" ∧
      edge.target = "lan-" ++ "8:0:20:1:2:3") :=
  ⟨by decide,
   arpScanLine_raw_mac [] "? (192.168.1.42) at 8:0:20:1:2:3 on en0" 5
     "192.168.1.42" "8:0:20:1:2:3" "en0" (by decide) (by decide) (by decide)⟩

/-- C8 counterexample: for the even-size TTL window `[60, 100]` the
fingerprinter's representative is the upper median 100 — a profile with TTL
range 58–64 fires no signal although the lower median 60 lies in range. -/
theorem gatherTtl_not_lower_median :
    OsEnricher.gatherTtlSignals
      [{ id := "linuxish", osFamily := OsFamily.linux, ttlRange := some (58, 64) }]
      { id := "lan-a", signalType := SignalType.lan, name := "a",
        status := NodeStatus.active, firstSeen := 0, lastSeen := 0,
        ip := some "10.0.0.5" }
      [("10.0.0.5", [60, 100])] = [] ∧
    specLowerMedian [60, 100] = some 60 ∧
    specUpperMedian [60, 100] = some 100 ∧
    (58 : Int) ≤ 60 ∧ (60 : Int) ≤ 64 := by decide

/-- C8 (amended): for every non-empty TTL window, the representative TTL
compared against each profile's range is the element at position `⌊n/2⌋` of
the ascending-sorted window — the upper median on even sizes — and it is one
of the recorded samples. -/
theorem gatherTtl_upper_median (profiles : List OsProfile) (node : NetworkNode)
    (ttlsByIp : List (String × List Int)) (ip : String) (ttls : List Int)
    (hip : node.ip = some ip) (hl : alGet ttlsByIp ip = some ttls)
    (hne : ttls ≠ []) :
    OsEnricher.gatherTtlSignals profiles node ttlsByIp =
      profiles.filterMap (specTtlSignal ((jsSortNums ttls).getD (ttls.length / 2) 0)) ∧
    specUpperMedian ttls = some ((jsSortNums ttls).getD (ttls.length / 2) 0) ∧
    ((jsSortNums ttls).getD (ttls.length / 2) 0) ∈ ttls := by
  have hperm : List.Perm (jsSortNums ttls) ttls := jsSortNums_perm ttls
  have hlen : (jsSortNums ttls).length = ttls.length := hperm.length_eq
  refine ⟨?_, ?_, ?_⟩
  · simp only [OsEnricher.gatherTtlSignals, hip, hl]
    rw [if_neg (by simpa using hne)]
    rw [hlen]
    rfl
  · simp [specUpperMedian, hne]
  · have hlt : ttls.length / 2 < ttls.length :=
      Nat.div_lt_self (List.length_pos.mpr hne) one_lt_two
    have hlt' : ttls.length / 2 < (jsSortNums ttls).length := by rw [hlen]; exact hlt
    have hmem : (jsSortNums ttls).getD (ttls.length / 2) 0 ∈ jsSortNums ttls := by
      rw [List.getD_eq_getElem _ _ hlt']
      exact List.getElem_mem _
    exact hperm.mem_iff.mp hmem

/-- C8 witness: the amended statement at the concrete window `[60, 100]`. -/
theorem gatherTtl_upper_median_witness :
    OsEnricher.gatherTtlSignals []
      { id := "lan-a", signalType := SignalType.lan, name := "a",
        status := NodeStatus.active, firstSeen := 0, lastSeen := 0,
        ip := some "10.0.0.5" }
      [("10.0.0.5", [60, 100])] =
      List.filterMap (specTtlSignal 100) [] ∧
    specUpperMedian [60, 100] = some 100 ∧
    (100 : Int) ∈ [(60 : Int), 100] :=
  gatherTtl_upper_median []
    { id := "lan-a", signalType := SignalType.lan, name := "a",
      status := NodeStatus.active, firstSeen := 0, lastSeen := 0,
      ip := some "10.0.0.5" }
    [("10.0.0.5", [60, 100])] "10.0.0.5" [60, 100]
    (by decide) (by decide) (by decide)

/-- C1: evaluating the packet pipeline's enrichment flush at a stale entity.
The store holds the stale LAN entity `lan-x` (status stale, lastSeen 1000);
the flush at time 50000 writes the aggregates through `upsertNode`, which
forces `status = active` and advances `lastSeen` to 50000 — enrichment
revives the stale entity, contradicting the claim (and spec invariant 3.8);
the lifecycle-safe `patchNode` is never used. -/
theorem enrichProtocols_revives_stale :
    (Orchestrator.enrichProtocols
      { nodes := [{ id := "lan-x", signalType := SignalType.lan, name := "x",
                    status := NodeStatus.stale, firstSeen := 500, lastSeen := 1000,
                    ip := some "10.0.0.5" }],
        edges := [] }
      [("10.0.0.5", [("TLS", 3)])] [("10.0.0.5", 4500)] [("10.0.0.5", 3)]
      50000) =
    ({ nodes := [{ id := "lan-x", signalType := SignalType.lan, name := "x",
                   status := NodeStatus.active, firstSeen := 500, lastSeen := 50000,
                   ip := some "10.0.0.5", protocols := some [("TLS", 3)],
                   totalBytes := some 4500, totalPackets := some 3 }],
       edges := [] }, true) ∧
    NodeStatus.active ≠ NodeStatus.stale ∧ (50000 : Nat) ≠ 1000 := by decide

/-- C3 helper: per-IP aggregation does not touch the event ring. -/
theorem aggregateIp_events (ps : PacketScanner) (ip proto : String) (len : Int) :
    (ps.aggregateIp ip proto len).events = ps.events := by
  unfold PacketScanner.aggregateIp
  split <;> rfl

/-- C3 helper: per-IP aggregation does not touch the pending queue. -/
theorem aggregateIp_pending (ps : PacketScanner) (ip proto : String) (len : Int) :
    (ps.aggregateIp ip proto len).pendingEvents = ps.pendingEvents := by
  unfold PacketScanner.aggregateIp
  split <;> rfl

/-- C3 helper: one parsed line grows the ring by at most one, never past the
10,000 cap. -/
theorem parseLine_events_bound (ps : PacketScanner) (line : String) (now : Int)
    (h : ps.events.length ≤ MAX_EVENTS) :
    (ps.parseLine line now).events.length ≤ MAX_EVENTS := by
  have hM : MAX_EVENTS = 10000 := rfl
  simp only [PacketScanner.parseLine]
  repeat' split
  all_goals
    first
      | exact h
      | (rw [aggregateIp_events, aggregateIp_events]
         simp only [List.length_append, List.length_cons, List.length_nil, List.length_drop]
         omega)

/-- C3 helper: a drain step does not touch the ring. -/
theorem drainEvents_events (ps : PacketScanner) :
    ps.drainEvents.events = ps.events := by
  unfold PacketScanner.drainEvents
  split
  · rfl
  · split <;> rfl

/-- C3 (amended): in every state reachable from capture start, under any
interleaving of line ingestion and drain steps, the event ring holds at most
10,000 events. -/
theorem packet_ring_bounded (hasConsumer : Bool) (ops : List PacketOp) :
    ((PacketScanner.init hasConsumer).run ops).events.length ≤ MAX_EVENTS := by
  suffices hgen : ∀ (ps : PacketScanner), ps.events.length ≤ MAX_EVENTS →
      (ps.run ops).events.length ≤ MAX_EVENTS by
    exact hgen _ (by simp [PacketScanner.init, MAX_EVENTS])
  induction ops with
  | nil => intro ps h; exact h
  | cons op rest ih =>
    intro ps h
    show ((ps.step op).run rest).events.length ≤ MAX_EVENTS
    refine ih _ ?_
    cases op with
    | ingest line now => exact parseLine_events_bound ps line now h
    | drain => rw [PacketScanner.step, drainEvents_events]; exact h

/-- C3 helper: ingesting the fixed valid line appends exactly one pending
event, whatever the current state. -/
theorem parseLine_pending_succ (ps : PacketScanner) :
    (ps.parseLine "1.5|10.0.0.1|10.0.0.2|||TCP|100|x" 0).pendingEvents.length =
      ps.pendingEvents.length + 1 := by
  obtain ⟨S, ev, h1, h2⟩ :
      ∃ (S : PacketScanner) (ev : PacketEvent),
        ps.parseLine "1.5|10.0.0.1|10.0.0.2|||TCP|100|x" 0 =
          (S.aggregateIp "10.0.0.1" "TCP" 100).aggregateIp "10.0.0.2" "TCP" 100 ∧
        S.pendingEvents = ps.pendingEvents ++ [ev] := ⟨_, _, rfl, rfl⟩
  rw [h1, aggregateIp_pending, aggregateIp_pending, h2]
  simp

/-- C3 helper: ingesting the fixed line `n` times grows the pending queue by
exactly `n`. -/
theorem run_ingest_pending (n : Nat) : ∀ (ps : PacketScanner),
    (ps.run (List.replicate n
      (PacketOp.ingest "1.5|10.0.0.1|10.0.0.2|||TCP|100|x" 0))).pendingEvents.length =
      ps.pendingEvents.length + n := by
  induction n with
  | zero => intro ps; rfl
  | succ k ih =>
    intro ps
    rw [List.replicate_succ]
    show ((ps.parseLine "1.5|10.0.0.1|10.0.0.2|||TCP|100|x" 0).run
      (List.replicate k
        (PacketOp.ingest "1.5|10.0.0.1|10.0.0.2|||TCP|100|x" 0))).pendingEvents.length = _
    rw [ih, parseLine_pending_succ]
    omega

/-- C3 counterexample: with no consumer registered, 10,001 ingested packet
lines leave 10,001 events in the pending drain queue — the queue is not
bounded by the 10,000-event ring capacity. -/
theorem packet_pending_unbounded :
    ((PacketScanner.init false).run
      (List.replicate 10001
        (PacketOp.ingest "1.5|10.0.0.1|10.0.0.2|||TCP|100|x" 0))).pendingEvents.length =
      10001 ∧
    ¬(10001 ≤ MAX_EVENTS) := by
  constructor
  · rw [run_ingest_pending 10001 (PacketScanner.init false)]
    simp [PacketScanner.init]
  · decide

/-- C4 helper: a surviving entity keeps its id through one tick. -/
theorem specTickNode_id {now : Nat} {o m : NetworkNode}
    (h : specTickNode now o = some m) : m.id = o.id := by
  unfold specTickNode at h
  repeat' split at h
  all_goals first
    | (cases h; rfl)
    | exact Option.noConfusion h

/-- C4 helper: changing the status to a genuinely different value yields a
different record. -/
theorem status_update_ne {n : NetworkNode} {st : NodeStatus} (h : n.status ≠ st) :
    ({ n with status := st } : NetworkNode) ≠ n := fun he =>
  h ((congrArg NetworkNode.status he).symm)

/-- C4 helper: pruning one id and then filtering by a set of ids equals
filtering by the enlarged set. -/
theorem filter_remove_edges (edges : List NetworkEdge) (id : String) (ids : List String) :
    (removeEdgesForNode edges id).filter
      (fun e => ¬ids.contains e.source ∧ ¬ids.contains e.target) =
    edges.filter
      (fun e => ¬(id :: ids).contains e.source ∧ ¬(id :: ids).contains e.target) := by
  unfold removeEdgesForNode
  rw [List.filter_filter]
  apply List.filter_congr
  intro e _
  by_cases hs : e.source = id <;> by_cases ht : e.target = id <;>
    by_cases hs2 : ids.contains e.source <;> by_cases ht2 : ids.contains e.target <;>
    simp [hs, ht, hs2, ht2, List.contains_cons]

/-- C4 helper: the source's interleaved tick loop equals the specification's
independent per-entity pass. -/
theorem tickVisit_eq (now : Nat) : ∀ (nodes : List NetworkNode) (edges : List NetworkEdge),
    tickVisit now nodes edges =
      (nodes.filterMap (specTickNode now),
       edges.filter (fun e =>
         ¬((nodes.filter (specRemoves now)).map (fun n => n.id)).contains e.source ∧
         ¬((nodes.filter (specRemoves now)).map (fun n => n.id)).contains e.target),
       (nodes.filter (specRemoves now)).map (fun n => n.id),
       nodes.any (fun n =>
         match specTickNode now n with
         | some m => m ≠ n
         | none => false)) := by
  intro nodes
  induction nodes with
  | nil => intro edges; simp [tickVisit]
  | cons n rest ih =>
    intro edges
    by_cases h1 : n.signalType = SignalType.thisDevice
    · have hrem : specRemoves now n = false := by simp [specRemoves, h1]
      have hnode : specTickNode now n = some n := by simp [specTickNode, h1]
      simp only [tickVisit, if_pos h1, ih edges]
      simp [List.filterMap_cons, List.filter_cons, hrem, hnode]
    · by_cases h2 : (now : Int) - (n.lastSeen : Int) > (removeAfterMs : Int)
      · have hrem : specRemoves now n = true := by simp [specRemoves, h1, h2]
        have hnode : specTickNode now n = none := by
          unfold specTickNode
          rw [if_neg h1, if_pos h2]
        simp only [tickVisit, if_neg h1, if_pos h2, ih (removeEdgesForNode edges n.id)]
        simp only [List.filterMap_cons, List.filter_cons, hrem, hnode, List.map_cons,
          List.any_cons, cond_true]
        refine Prod.ext rfl (Prod.ext ?_ (Prod.ext rfl ?_))
        · exact filter_remove_edges edges n.id _
        · simp
      · by_cases h3 : (now : Int) - (n.lastSeen : Int) > (expiredAfterMs : Int) ∧
            n.status ≠ NodeStatus.expired
        · have hrem : specRemoves now n = false := by simp [specRemoves, h1, h2]
          have hnode : specTickNode now n = some ({ n with status := NodeStatus.expired }) := by
            unfold specTickNode
            rw [if_neg h1, if_neg h2, if_pos h3]
          simp only [tickVisit, if_neg h1, if_neg h2, if_pos h3, ih edges]
          simp only [List.filterMap_cons, List.filter_cons, hrem, hnode, List.any_cons,
            cond_false]
          refine Prod.ext rfl (Prod.ext rfl (Prod.ext rfl ?_))
          simp [status_update_ne h3.2]
        · by_cases h4 : (now : Int) - (n.lastSeen : Int) > (staleAfterMs : Int) ∧
              n.status ≠ NodeStatus.stale ∧ n.status ≠ NodeStatus.expired
          · have hrem : specRemoves now n = false := by simp [specRemoves, h1, h2]
            have hnode : specTickNode now n = some ({ n with status := NodeStatus.stale }) := by
              unfold specTickNode
              rw [if_neg h1, if_neg h2, if_neg h3, if_pos h4]
            simp only [tickVisit, if_neg h1, if_neg h2, if_neg h3, if_pos h4, ih edges]
            simp only [List.filterMap_cons, List.filter_cons, hrem, hnode, List.any_cons,
              cond_false]
            refine Prod.ext rfl (Prod.ext rfl (Prod.ext rfl ?_))
            simp [status_update_ne h4.2.1]
          · have hrem : specRemoves now n = false := by simp [specRemoves, h1, h2]
            have hnode : specTickNode now n = some n := by
              unfold specTickNode
              rw [if_neg h1, if_neg h2, if_neg h3, if_neg h4]
            simp only [tickVisit, if_neg h1, if_neg h2, if_neg h3, if_neg h4, ih edges]
            simp [List.filterMap_cons, List.filter_cons, hrem, hnode]

/-- C4 helper: two nodes of a well-formed store with the same id coincide. -/
theorem WF_id_inj {s : NetworkState} (hwf : s.WF) {a b : NetworkNode}
    (ha : a ∈ s.nodes) (hb : b ∈ s.nodes) (hab : a.id = b.id) : a = b := by
  by_contra hne
  exact (List.Pairwise.forall (fun x y h => (h ∘ Eq.symm : y.id ≠ x.id)) hwf
    ha hb hne) hab

/-- C4 (amended): a tick equals the specification's per-entity pass — every
non-Host entity whose age strictly exceeds 90 s is deleted, its relations
pruned and its id reported; entities over the expired (resp. stale)
threshold have their status advanced; the Host is untouched; the flag
reports whether any status changed — and under store well-formedness every
non-Host entity with `lastSeen < now − 90 s` is absent from the resulting
store and from every remaining relation. -/
theorem tick_spec (s : NetworkState) (now : Nat) :
    s.tick now = s.specTick now ∧
    (s.WF → ∀ n ∈ s.nodes, n.signalType ≠ SignalType.thisDevice →
      (now : Int) - (n.lastSeen : Int) > (removeAfterMs : Int) →
      (s.tick now).2.1.contains n.id = true ∧
      (∀ m ∈ (s.tick now).1.nodes, m.id ≠ n.id) ∧
      (∀ e ∈ (s.tick now).1.edges, e.source ≠ n.id ∧ e.target ≠ n.id)) := by
  have heq : s.tick now = s.specTick now := by
    unfold NetworkState.tick NetworkState.specTick
    rw [tickVisit_eq now s.nodes s.edges]
  refine ⟨heq, ?_⟩
  intro hwf n hn hnh hage
  have hrem : specRemoves now n = true := by simp [specRemoves, hnh, hage]
  have hmem : n.id ∈ (s.nodes.filter (specRemoves now)).map (fun x => x.id) :=
    List.mem_map_of_mem _ (List.mem_filter.mpr ⟨hn, hrem⟩)
  rw [heq]
  have hnodes : (s.specTick now).1.nodes = s.nodes.filterMap (specTickNode now) := rfl
  have hremoved : (s.specTick now).2.1 =
      (s.nodes.filter (specRemoves now)).map (fun x => x.id) := rfl
  have hedges : (s.specTick now).1.edges = s.edges.filter (fun e =>
      ¬((s.nodes.filter (specRemoves now)).map (fun x => x.id)).contains e.source ∧
      ¬((s.nodes.filter (specRemoves now)).map (fun x => x.id)).contains e.target) := rfl
  have hnone : specTickNode now n = none := by
    unfold specTickNode
    rw [if_neg hnh, if_pos hage]
  refine ⟨?_, ?_, ?_⟩
  · rw [hremoved]
    simpa using hmem
  · intro m hm
    rw [hnodes] at hm
    rcases List.mem_filterMap.mp hm with ⟨o, ho, hspec⟩
    intro hcontra
    have hid : m.id = o.id := specTickNode_id hspec
    have hoe : o = n := WF_id_inj hwf ho hn (by rw [← hid, hcontra])
    rw [hoe, hnone] at hspec
    exact Option.noConfusion hspec
  · intro e he
    rw [hedges] at he
    have hp := (List.mem_filter.mp he).2
    simp only [decide_eq_true_eq] at hp
    constructor
    · intro hcontra
      exact hp.1 (by simpa [hcontra] using hmem)
    · intro hcontra
      exact hp.2 (by simpa [hcontra] using hmem)

/-- C4 counterexample: an entity whose `lastSeen` equals exactly `now − 90 s`
(age 90 s, not strictly over the threshold) is not deleted — the tick marks
it expired and removes nothing, refuting the claim's "every non-Host entity
with lastSeen ≤ now − 90 s is absent after tick returns". -/
theorem tick_boundary_not_removed :
    ((0 : Nat) ≤ 90000 - 90000) ∧
    (NetworkState.tick
      { nodes := [{ id := "a", signalType := SignalType.lan, name := "a",
                    status := NodeStatus.active, firstSeen := 0, lastSeen := 0 }],
        edges := [] } 90000).1.nodes.map (fun n => (n.id, n.status)) =
      [("a", NodeStatus.expired)] ∧
    (NetworkState.tick
      { nodes := [{ id := "a", signalType := SignalType.lan, name := "a",
                    status := NodeStatus.active, firstSeen := 0, lastSeen := 0 }],
        edges := [] } 90000).2.1 = [] := by decide

/-- C4 witness: at time 100000 an entity last seen at 0 is reported
removed. -/
theorem tick_spec_witness :
    (NetworkState.tick
      { nodes := [{ id := "this-device", signalType := SignalType.thisDevice,
                    name := "host", status := NodeStatus.active, firstSeen := 0,
                    lastSeen := 0 },
                  { id := "b", signalType := SignalType.lan, name := "b",
                    status := NodeStatus.stale, firstSeen := 0, lastSeen := 0 }],
        edges := [{ id := "edge-this-b", source := "this-device", target := "b",
                    type := EdgeType.connectedTo }] } 100000).2.1.contains "b" = true :=
  ((tick_spec
    { nodes := [{ id := "this-device", signalType := SignalType.thisDevice,
                  name := "host", status := NodeStatus.active, firstSeen := 0,
                  lastSeen := 0 },
                { id := "b", signalType := SignalType.lan, name := "b",
                  status := NodeStatus.stale, firstSeen := 0, lastSeen := 0 }],
      edges := [{ id := "edge-this-b", source := "this-device", target := "b",
                  type := EdgeType.connectedTo }] } 100000).2
    (by decide)
    { id := "b", signalType := SignalType.lan, name := "b",
      status := NodeStatus.stale, firstSeen := 0, lastSeen := 0 }
    (by decide) (by decide) (by decide)).1

/-- C2 helper: membership after an upsert — an original member, the merged
record, or the fresh record. -/
theorem upsert_mem_cases {st : NetworkState} {en : NetworkNode} {now : Nat}
    {m : NetworkNode} (hm : m ∈ (st.upsertNode en now).nodes) :
    m ∈ st.nodes ∨
    (∃ old, st.findNode en.id = some old ∧ m = upsertMerge old en now) ∨
    m = upsertFresh en now := by
  unfold NetworkState.upsertNode at hm
  rcases h : st.findNode en.id with _ | old
  · rw [h] at hm
    simp only at hm
    rcases List.mem_append.mp hm with h' | h'
    · exact Or.inl h'
    · exact Or.inr (Or.inr (by simpa using h'))
  · rw [h] at hm
    simp only at hm
    rcases mem_nodesSet hm with h' | h'
    · exact Or.inr (Or.inl ⟨old, rfl, h'⟩)
    · exact Or.inl h'

/-- C2 helper: a found node is a member carrying the looked-up id. -/
theorem findNode_mem {st : NetworkState} {id : String} {old : NetworkNode}
    (h : st.findNode id = some old) : old ∈ st.nodes ∧ old.id = id := by
  unfold NetworkState.findNode at h
  refine ⟨List.mem_of_find?_eq_some h, ?_⟩
  have := List.find?_some h
  simpa using this

/-- C2 helper: one upsert of a node whose OS triple matches a well-formed
base store node preserves the "OS fields come from the base" invariant. -/
theorem upsert_osTriple_inv (base st : NetworkState) (en : NetworkNode) (now : Nat)
    (hwf : base.WF)
    (hen : ∃ l ∈ base.nodes, l.id = en.id ∧ osTriple en = osTriple l)
    (hst : ∀ m ∈ st.nodes, ∃ o ∈ base.nodes, o.id = m.id ∧ osTriple m = osTriple o) :
    ∀ m ∈ (st.upsertNode en now).nodes,
      ∃ o ∈ base.nodes, o.id = m.id ∧ osTriple m = osTriple o := by
  intro m hm
  rcases hen with ⟨l, hl, hlid, htr⟩
  simp only [osTriple, Prod.mk.injEq] at htr
  rcases upsert_mem_cases hm with h' | ⟨old, hfind, rfl⟩ | rfl
  · exact hst m h'
  · rcases findNode_mem hfind with ⟨holdmem, holdid⟩
    rcases hst old holdmem with ⟨o1, ho1, ho1id, htr1⟩
    have ho1l : o1 = l := WF_id_inj hwf ho1 hl (by rw [ho1id, holdid, ← hlid])
    simp only [osTriple, Prod.mk.injEq] at htr1
    rw [ho1l] at htr1
    refine ⟨l, hl, by simpa [upsertMerge, mergeNode] using hlid, ?_⟩
    simp only [osTriple, upsertMerge, mergeNode, Prod.mk.injEq]
    rw [htr.1, htr.2.1, htr.2.2, htr1.1, htr1.2.1, htr1.2.2]
    exact ⟨orElse_self _, orElse_self _, orElse_self _⟩
  · refine ⟨l, hl, by simpa [upsertFresh] using hlid, ?_⟩
    simp only [osTriple, upsertFresh, Prod.mk.injEq]
    exact ⟨htr.1, htr.2.1, htr.2.2⟩

/-- C2 helper: the classifier patch leaves the id and the OS triple of an
entity untouched. -/
theorem deviceEnrichNode_triple (dps : List DeviceProfile)
    (si : List (String × List String)) (ni : List (String × String))
    (l : NetworkNode) :
    (deviceEnrichNode dps si ni l).1.id = l.id ∧
    osTriple (deviceEnrichNode dps si ni l).1 = osTriple l := by
  unfold deviceEnrichNode
  by_cases hdt : jsTruthy l.deviceType = true
  · rw [if_pos hdt]
    exact ⟨rfl, rfl⟩
  · rw [if_neg hdt]
    cases bestProfile dps l.vendor ((l.ip.bind (alGet si)).getD []) l.name with
    | none => exact ⟨rfl, rfl⟩
    | some p => exact ⟨rfl, rfl⟩

/-- C2 helper: the classify fold keeps OS triples anchored to base nodes. -/
theorem fold_upsert_osTriple (base : NetworkState) (now : Nat) (hwf : base.WF) :
    ∀ (items : List (NetworkNode × Bool)) (st : NetworkState),
    (∀ p ∈ items, ∃ l ∈ base.nodes, l.id = p.1.id ∧ osTriple p.1 = osTriple l) →
    (∀ m ∈ st.nodes, ∃ o ∈ base.nodes, o.id = m.id ∧ osTriple m = osTriple o) →
    ∀ m ∈ (items.foldl
        (fun st p => if p.2 then st.upsertNode p.1 now else st) st).nodes,
      ∃ o ∈ base.nodes, o.id = m.id ∧ osTriple m = osTriple o := by
  intro items
  induction items with
  | nil => intro st _ hst m hm; exact hst m hm
  | cons p rest ih =>
    intro st hitems hst m hm
    rw [List.foldl_cons] at hm
    refine ih _ (fun q hq => hitems q (List.mem_cons_of_mem _ hq)) ?_ m hm
    by_cases hp : p.2
    · rw [if_pos hp]
      exact upsert_osTriple_inv base st p.1 now hwf (hitems p (List.mem_cons_self _ _)) hst
    · rw [if_neg hp]
      exact hst

/-- C2 helper: the classifier pass (`DeviceFingerprinter.enrich` applied
through `upsertNode`) never introduces OS fields not already on a store
node with the same id. -/
theorem classify_osTriple (dps : List DeviceProfile) (s1 : NetworkState) (now : Nat)
    (hwf : s1.WF) :
    ∀ m ∈ (Orchestrator.classify dps s1 now).nodes,
      ∃ o ∈ s1.nodes, o.id = m.id ∧ osTriple m = osTriple o := by
  intro m hm
  unfold Orchestrator.classify at hm
  by_cases hempty : (s1.nodes.filter (fun n => n.signalType = SignalType.lan)).isEmpty
  · rw [if_pos hempty] at hm
    exact ⟨m, hm, rfl, rfl⟩
  · rw [if_neg hempty] at hm
    refine fold_upsert_osTriple s1 now hwf _ s1 ?_ (fun o ho => ⟨o, ho, rfl, rfl⟩) m hm
    intro p hp
    unfold DeviceFingerprinter.enrich at hp
    rcases List.mem_map.mp hp with ⟨l, hl, hpe⟩
    have hl1 : l ∈ s1.nodes := (List.mem_filter.mp hl).1
    rcases deviceEnrichNode_triple dps _ _ l with ⟨hid, htr⟩
    rw [hpe] at hid htr
    exact ⟨l, hl1, hid.symm, htr⟩

/-- C2 helper: boundary throughput enrichment keeps ids and OS triples. -/
theorem enrichNodes_osTriple (rates : List (String × TrafficRate))
    (ns : List NetworkNode) :
    ∀ m ∈ Orchestrator.enrichNodes rates ns,
      ∃ o ∈ ns, o.id = m.id ∧ osTriple m = osTriple o := by
  intro m hm
  unfold Orchestrator.enrichNodes at hm
  by_cases hr : rates.isEmpty
  · rw [if_pos hr] at hm
    exact ⟨m, hm, rfl, rfl⟩
  · rw [if_neg hr] at hm
    rcases List.mem_map.mp hm with ⟨o, ho, hom⟩
    refine ⟨o, ho, ?_, ?_⟩ <;> rw [← hom] <;> rcases halg : alGet rates o.id with _ | rate
    · simp [halg]
    · simp [halg, nodeWithRate]
    · simp [halg, osTriple]
    · simp [halg, nodeWithRate, osTriple]

/-- C2 helper: replacing or appending an edge leaves the node map alone. -/
theorem upsertEdge_nodes (s : NetworkState) (e : NetworkEdge) :
    (s.upsertEdge e).nodes = s.nodes := by
  unfold NetworkState.upsertEdge
  split <;> rfl

/-- C2 helper: applying a scan's edges leaves the node map alone. -/
theorem edges_fold_nodes (edges : List NetworkEdge) :
    ∀ (st : NetworkState),
    (edges.foldl (fun st e => st.upsertEdge e) st).nodes = st.nodes := by
  induction edges with
  | nil => intro st; rfl
  | cons e rest ih =>
    intro st
    rw [List.foldl_cons, ih, upsertEdge_nodes]

/-- C2 helper: replacing the first id occurrence keeps ids pairwise
distinct. -/
theorem nodesSet_pairwise {l : List NetworkNode} {id : String} {m : NetworkNode}
    (h : l.Pairwise (fun a b => a.id ≠ b.id)) (hm : m.id = id) :
    (nodesSet l id m).Pairwise (fun a b => a.id ≠ b.id) := by
  induction l with
  | nil => exact h
  | cons a rest ih =>
    rcases List.pairwise_cons.mp h with ⟨ha, hrest⟩
    by_cases hid : a.id = id
    · simp only [nodesSet, if_pos hid]
      refine List.pairwise_cons.mpr ⟨?_, hrest⟩
      intro b hb
      rw [hm, ← hid]
      exact ha b hb
    · simp only [nodesSet, if_neg hid]
      refine List.pairwise_cons.mpr ⟨?_, ih hrest⟩
      intro b hb
      rcases mem_nodesSet hb with rfl | hb'
      · rw [hm]; exact hid
      · exact ha b hb'

/-- C2 helper: an upsert keeps the store well formed. -/
theorem WF_upsert (s : NetworkState) (en : NetworkNode) (now : Nat)
    (h : s.WF) : (s.upsertNode en now).WF := by
  unfold NetworkState.upsertNode
  rcases hf : s.findNode en.id with _ | old
  · show ((s.nodes ++ [upsertFresh en now]).Pairwise _)
    refine List.pairwise_append.mpr ⟨h, List.pairwise_singleton _ _, ?_⟩
    intro a ha b hb
    have hb' : b = upsertFresh en now := by simpa using hb
    have hna : ¬(a.id = en.id) := by
      simpa using List.find?_eq_none.mp hf a ha
    rw [hb']
    simpa [upsertFresh] using hna
  · exact nodesSet_pairwise h (by simp [upsertMerge, mergeNode])

/-- C2 helper: applying a whole scan result keeps the store well formed. -/
theorem WF_applyResult (s : NetworkState) (r : ScanResult) (now : Nat)
    (h : s.WF) : (Orchestrator.applyResult s r now).WF := by
  unfold Orchestrator.applyResult
  show ((r.edges.foldl (fun st e => st.upsertEdge e)
    (r.nodes.foldl (fun st n => st.upsertNode n now) s)).nodes.Pairwise _)
  rw [edges_fold_nodes]
  suffices hgen : ∀ (ns : List NetworkNode) (st : NetworkState), st.WF →
      (ns.foldl (fun st n => st.upsertNode n now) st).WF by
    exact hgen r.nodes s h
  intro ns
  induction ns with
  | nil => intro st hst; exact hst
  | cons n rest ih =>
    intro st hst
    rw [List.foldl_cons]
    exact ih _ (WF_upsert st n now hst)

/-- C2 (amended): the per-scan post-processing between applying the result to
the store and publishing runs the device classifier exactly for `arp` and
`bonjour` scans and it runs no OS fingerprinter: every entity in the
published snapshot carries the identical `osFamily`, `deviceCategory` and
`osFingerprintConfidence` as a same-id node of the store right after the
scan result was applied, whatever the scan. -/
theorem runScanner_no_os_enrichment (dps : List DeviceProfile) (name : String)
    (r : ScanResult) (rates : List (String × TrafficRate)) (s : NetworkState)
    (now : Nat) (hwf : s.WF) :
    ∀ m ∈ ((Orchestrator.runScanner dps name r rates s now).2).nodes,
      ∃ o ∈ (Orchestrator.applyResult s r now).nodes,
        o.id = m.id ∧ osTriple m = osTriple o := by
  intro m hm
  have hwf1 : (Orchestrator.applyResult s r now).WF := WF_applyResult s r now hwf
  have hmsg : ((Orchestrator.runScanner dps name r rates s now).2).nodes =
      Orchestrator.enrichNodes rates
        (if name = "arp" ∨ name = "bonjour"
         then Orchestrator.classify dps (Orchestrator.applyResult s r now) now
         else Orchestrator.applyResult s r now).nodes := rfl
  rw [hmsg] at hm
  rcases enrichNodes_osTriple rates _ m hm with ⟨o2, ho2, hid2, htr2⟩
  by_cases hname : name = "arp" ∨ name = "bonjour"
  · rw [if_pos hname] at ho2
    rcases classify_osTriple dps _ now hwf1 o2 ho2 with ⟨o, ho, hid, htr⟩
    exact ⟨o, ho, by rw [hid, hid2], by rw [htr2, htr]⟩
  · rw [if_neg hname] at ho2
    exact ⟨o2, ho2, hid2, htr2⟩

/-- C2 counterexample: after a Bluetooth scan discovers an iPhone whose
gathered signals sum to confidence 0.5 ≥ 0.45, the published snapshot still
carries no `osFamily`, `deviceCategory` or `osFingerprintConfidence` — the
per-scan post-processing never runs the OS fingerprinter (`OsEnricher`,
which on the same entity would attach `osFamily = ios` at confidence 0.5). -/
theorem runScanner_drops_os_fields :
    ((Orchestrator.runScanner [] "bluetooth"
      { nodes := [iphoneNode], edges := [] } [] { nodes := [], edges := [] }
      0).2).nodes.map
      (fun n => (n.id, n.osFamily, n.deviceCategory, n.osFingerprintConfidence)) =
      [("bt-iPhone", none, none, none)] ∧
    OsEnricher.enrich [iosBtProfile] [iphoneNode] [] [] =
      [{ iphoneNode with osFamily := some OsFamily.ios, deviceCategory := some DeviceCategory.mobile, osFingerprintConfidence := some ((5:Rat)/10) }] ∧
    CONFIDENCE_THRESHOLD ≤ 5/10 := by
  refine ⟨by decide, ?_, by norm_num [CONFIDENCE_THRESHOLD]⟩
  have hinf : OsFingerprintEngine.infer [iphoneSignal] =
      some { osFamily := OsFamily.ios, deviceCategory := DeviceCategory.unknown,
             confidence := 5/10 } := by
    have hb : bestFamily (sumScores [iphoneSignal]) = (OsFamily.ios, 5/10) := by
      show bestFamily [(OsFamily.ios, (5:Rat)/10)] = (OsFamily.ios, 5/10)
      simp only [bestFamily, List.foldl]
      rw [if_pos (by norm_num)]
    have hmin : min (1 : Rat) (5/10) = 5/10 := min_eq_right (by norm_num)
    have hlt : ¬((5:Rat)/10 < CONFIDENCE_THRESHOLD) := by
      norm_num [CONFIDENCE_THRESHOLD]
    simp only [OsFingerprintEngine.infer, hb, hmin]
    rw [if_neg hlt]
    rfl
  have key : OsEnricher.enrich [iosBtProfile] [iphoneNode] [] [] =
      [match OsFingerprintEngine.infer [iphoneSignal] with
       | none => iphoneNode
       | some result =>
         { iphoneNode with osFamily := some result.osFamily, deviceCategory := some (OsFingerprintEngine.deriveCategory result.osFamily iphoneNode.deviceType iphoneNode.minorType), osFingerprintConfidence := some result.confidence }] := rfl
  rw [key, hinf]
  rfl

/-- C2 witness: the amended statement evaluated after a Bluetooth scan. -/
theorem runScanner_no_os_enrichment_witness :
    ∃ o ∈ (Orchestrator.applyResult { nodes := [], edges := [] }
        { nodes := [iphoneNode], edges := [] } 0).nodes,
      o.id = iphoneNode.id ∧ osTriple iphoneNode = osTriple o :=
  runScanner_no_os_enrichment [] "bluetooth"
    { nodes := [iphoneNode], edges := [] } [] { nodes := [], edges := [] } 0
    (by decide) iphoneNode (by decide)
